import Mathlib

/-!
# Document Disk: the client of `frontend/src/App.js`

A shallow embedding of the React component `App` and of the two form
components that guard its handlers.  A handler is a function on the
component state: every `await` of the source takes the answer of the
backend as an argument, and every request that is sent is appended to
`Client.log`, together with the `Authorization` header axios attaches to it.

Successful answers carry the payload of the backend contract (a token for
`POST /login`, a user for `GET /me`, a document list for `GET /documents`);
failed answers carry an arbitrary JSON body, because `handleLogin` inspects
it with dynamic type tests.

`Page` adds the two requests that the mount effect sends without `await`, and
`Live` suspends every call at each of its `await`s, so that calls and answers
interleave; a handler run from call to end is the run that nothing interrupts.

Time enters only through the timeout of the `Notification` component: `Screen`
adds a clock in milliseconds and the pending timeout to the client.
-/

namespace DocumentDisk

/-! ## JavaScript values -/

/-- JavaScript values as far as `handleLogin` inspects them: the body of a
failed response and whatever ends up in the `error` state.  Numbers are the
integers (a status code, a count); an object is its list of own properties. -/
inductive JsVal where
  | undefined
  | null
  | bool (b : Bool)
  | num (n : Int)
  | str (s : String)
  | arr (items : List JsVal)
  | obj (fields : List (String × JsVal))

namespace JsVal

/-- JavaScript truthiness: `undefined`, `null`, `false`, `0` and the empty
string are falsy, everything else (every array and object too) is truthy. -/
def truthy : JsVal → Bool
  | undefined => false
  | null => false
  | bool b => b
  | num n => n != 0
  | str s => s != ""
  | arr _ => true
  | obj _ => true

/-- The values on which a property access throws a `TypeError`. -/
def isNullish : JsVal → Bool
  | undefined => true
  | null => true
  | _ => false

/-- Test `typeof v === 'string'`. -/
def isString : JsVal → Bool
  | str _ => true
  | _ => false

/-- Test `Array.isArray(v)`. -/
def isArray : JsVal → Bool
  | arr _ => true
  | _ => false

/-- Lookup of a key in the own properties of an object. -/
def lookup (key : String) : List (String × JsVal) → JsVal
  | [] => undefined
  | (k, v) :: rest => if k = key then v else lookup key rest

/-- Read `v.key` on a value that is not nullish, for a key that is no builtin
property (`detail`, `msg`): an object yields its own property, every other
value `undefined`. -/
def field (v : JsVal) (key : String) : JsVal :=
  match v with
  | obj fields => lookup key fields
  | _ => undefined

/-- Read `v?.key`: `undefined` on a nullish value. -/
def optField (v : JsVal) (key : String) : JsVal :=
  if v.isNullish then undefined else v.field key

/-- Read `v.key`: `none` stands for the `TypeError` thrown on a nullish value. -/
def getField (v : JsVal) (key : String) : Option JsVal :=
  if v.isNullish then none else some (v.field key)

/-- Read `v[0]` on an array: its first element, `undefined` when it is empty. -/
def first : JsVal → JsVal
  | arr (x :: _) => x
  | _ => undefined

/-- The JavaScript `a || b`. -/
def orElse (a b : JsVal) : JsVal :=
  if a.truthy then a else b

end JsVal

/-! ## Data model -/

/-- The payload of a successful `GET /me`. -/
structure User where
  username : String
  deriving DecidableEq, Repr

/-- One element of the payload of a successful `GET /documents`. -/
structure Document where
  id : String
  title : String
  content : String
  updated_at : String
  deriving DecidableEq, Repr

/-- The argument of `onSave`: `{ title, content }`. -/
structure DocumentData where
  title : String
  content : String
  deriving DecidableEq, Repr

/-- The state `currentView`: `'list'` or `'editor'`. -/
inductive View where
  | list
  | editor
  deriving DecidableEq, Repr

/-- The state `notification`: `{ message, type }`. -/
structure Notification where
  message : String
  type : String
  deriving DecidableEq, Repr

/-- The HTTP method of a request. -/
inductive Method where
  | get
  | post
  | put
  | delete
  deriving DecidableEq, Repr

/-- The resource of a request below `${API}`. -/
inductive Endpoint where
  | register
  | login
  | me
  | documents
  | document (id : String)
  deriving DecidableEq, Repr

/-- The body of a request. -/
inductive Body where
  | credentials (username password pin : String)
  | document (data : DocumentData)
  deriving DecidableEq, Repr

/-- A request as axios sends it; `auth` is the `Authorization` header taken
from `axios.defaults.headers.common` at that moment. -/
structure Request where
  method : Method
  endpoint : Endpoint
  auth : Option String
  body : Option Body
  deriving DecidableEq, Repr

/-- A request that was sent, with whether `user` was set when it was sent. -/
structure Pending where
  req : Request
  userSet : Bool
  deriving DecidableEq, Repr

/-- A request that was sent and answered; `ok` tells whether the promise of
axios resolved. -/
structure Exchange where
  req : Request
  userSet : Bool
  ok : Bool
  deriving DecidableEq, Repr

/-- The `response` of a rejected axios call. -/
structure ErrResponse where
  status : Nat
  data : JsVal

/-- A rejected axios call; `response` is absent when no answer arrived. -/
structure HttpError where
  response : Option ErrResponse

/-- The result of awaiting an axios call. -/
inductive Outcome (α : Type) where
  | ok (data : α)
  | fail (err : HttpError)

/-- Whether the awaited call resolved. -/
def Outcome.isOk {α : Type} : Outcome α → Bool
  | .ok _ => true
  | .fail _ => false

/-- The state of `App`, the two places outside it that the handlers write
(`localStorage` and the axios defaults), and the log of the requests sent. -/
structure Client where
  token : Option String
  authHeader : Option String
  user : Option User
  documents : List Document
  currentView : View
  currentDocument : Option Document
  isLoading : Bool
  error : JsVal
  notification : Option Notification
  log : List Exchange

/-- The header value of a token. -/
def bearer (token : String) : String :=
  "Bearer " ++ token

/-- Truthiness of `localStorage.getItem('token')`: present and not empty. -/
def tokenTruthy : Option String → Bool
  | some t => t != ""
  | none => false

/-- The client when the page has loaded: the module body has copied a
persisted token into the axios defaults, and `App` holds its initial state. -/
def initialClient (persisted : Option String) : Client :=
  { token := persisted
    authHeader := if tokenTruthy persisted then persisted.map bearer else none
    user := none
    documents := []
    currentView := .list
    currentDocument := none
    isLoading := false
    error := .str ""
    notification := none
    log := [] }

/-! ## Requests -/

/-- The request that a call of axios sends from the client `c`. -/
def Client.request (c : Client) (m : Method) (e : Endpoint) (body : Option Body) : Pending :=
  { req := { method := m, endpoint := e, auth := c.authHeader, body := body }
    userSet := c.user.isSome }

/-- Append an answered request to the log. -/
def Client.record (c : Client) (p : Pending) (ok : Bool) : Client :=
  { c with log := c.log ++ [{ req := p.req, userSet := p.userSet, ok := ok }] }

/-- Send a request that is awaited on the spot. -/
def Client.send (c : Client) (m : Method) (e : Endpoint) (body : Option Body) (ok : Bool) :
    Client :=
  c.record (c.request m e body) ok

/-! ## Handlers of `App` -/

/-- The function `showNotification`. -/
def showNotification (c : Client) (message : String) (type : String) : Client :=
  { c with notification := some { message := message, type := type } }

/-- The function `hideNotification`. -/
def hideNotification (c : Client) : Client :=
  { c with notification := none }

/-- The function `logout`. -/
def logout (c : Client) : Client :=
  { c with
    token := none
    authHeader := none
    user := none
    documents := []
    currentView := .list
    currentDocument := none }

/-- The part of `fetchUser` that runs once `GET /me` is answered. -/
def fetchUserResume (c : Client) (answer : Outcome User) : Client :=
  match answer with
  | .ok data => { c with user := some data }
  | .fail _ => logout c

/-- The function `fetchUser`, awaited. -/
def fetchUser (c : Client) (answer : Outcome User) : Client :=
  fetchUserResume (c.send .get .me none answer.isOk) answer

/-- The part of `fetchDocuments` that runs once `GET /documents` is answered. -/
def fetchDocumentsResume (c : Client) (answer : Outcome (List Document)) : Client :=
  match answer with
  | .ok data => { c with documents := data }
  | .fail _ => { c with error := .str "Failed to load documents" }

/-- The function `fetchDocuments`, awaited. -/
def fetchDocuments (c : Client) (answer : Outcome (List Document)) : Client :=
  fetchDocumentsResume (c.send .get .documents none answer.isOk) answer

/-- The argument of `handleLogin`. -/
structure LoginData where
  username : String
  password : String
  pin : String
  isRegistering : Bool

/-- The answers of the backend to the requests `handleLogin` may send; the
answer to a request that is not sent is not looked at. -/
structure LoginAnswers where
  register : Outcome Unit
  login : Outcome String
  me : Outcome User
  documents : Outcome (List Document)

/-- The message the `catch (registerError)` block of `handleLogin` puts in
`error`; `none` when the block throws a `TypeError` (`firstError.msg` on a
first element that is `undefined` or `null`). -/
def registerErrorMessage (e : HttpError) : Option JsVal :=
  if (e.response.map (·.status)) = some 400 then
    some (.str "Username is already taken. Please choose a different username.")
  else
    let detail : JsVal :=
      match e.response with
      | some r => r.data.optField "detail"
      | none => .undefined
    if detail.truthy then
      if detail.isString then
        some detail
      else if detail.isArray then
        let firstError := detail.first
        (firstError.getField "msg").map
          (fun msg => msg.orElse (.str "Invalid input. Please check your details."))
      else
        some (.str "Registration failed. Please check your details.")
    else
      some (.str "Registration failed. Please try again.")

/-- The message the `catch (loginError)` block of `handleLogin` puts in `error`. -/
def loginErrorMessage (e : HttpError) : JsVal :=
  if (e.response.map (·.status)) = some 401 then
    .str "Invalid credentials. Please check your username, password, and PIN."
  else
    .str "Login failed. Please try again."

/-- The inner `try` of `handleLogin` around `POST /login`, up to and including
the `finally` of the outer one. -/
def loginStep (c : Client) (d : LoginData) (a : LoginAnswers) : Client :=
  let c := c.send .post .login (some (.credentials d.username d.password d.pin)) a.login.isOk
  match a.login with
  | .ok access_token =>
    let c := { c with token := some access_token }
    let c := { c with authHeader := some (bearer access_token) }
    let c := fetchUser c a.me
    let c := fetchDocuments c a.documents
    let c := { c with error := .str "" }
    let c := showNotification c ("Welcome back, " ++ d.username ++ "!") "success"
    { c with isLoading := false }
  | .fail loginError =>
    let c := { c with error := loginErrorMessage loginError }
    { c with isLoading := false }

/-- The function `handleLogin`. -/
def handleLogin (c : Client) (d : LoginData) (a : LoginAnswers) : Client :=
  let c := { c with isLoading := true }
  let c := { c with error := .str "" }
  if d.isRegistering then
    let c := c.send .post .register (some (.credentials d.username d.password d.pin))
      a.register.isOk
    match a.register with
    | .ok _ => loginStep c d a
    | .fail registerError =>
      match registerErrorMessage registerError with
      | some message =>
        let c := { c with error := message }
        let c := { c with isLoading := false }
        { c with isLoading := false }
      | none =>
        let c := { c with error := .str "An unexpected error occurred. Please try again." }
        { c with isLoading := false }
  else
    loginStep c d a

/-- The answers of the backend to the requests of a save or a delete. -/
structure MutationAnswers where
  mutate : Outcome Unit
  documents : Outcome (List Document)

/-- The function `handleSaveDocument`. -/
def handleSaveDocument (c : Client) (documentData : DocumentData) (a : MutationAnswers) :
    Client :=
  let c := { c with isLoading := true }
  let c := { c with error := .str "" }
  let c :=
    match c.currentDocument with
    | some doc => c.send .put (.document doc.id) (some (.document documentData)) a.mutate.isOk
    | none => c.send .post .documents (some (.document documentData)) a.mutate.isOk
  match a.mutate with
  | .ok _ =>
    let c := fetchDocuments c a.documents
    let c := { c with currentView := .list }
    let c := { c with currentDocument := none }
    let c := showNotification c "Document saved successfully!" "success"
    { c with isLoading := false }
  | .fail _ =>
    let c := { c with error := .str "Failed to save document" }
    { c with isLoading := false }

/-- The function `handleDeleteDocument`; `confirmed` is the answer of
`window.confirm`. -/
def handleDeleteDocument (c : Client) (documentId : String) (confirmed : Bool)
    (a : MutationAnswers) : Client :=
  if confirmed then
    let c := c.send .delete (.document documentId) none a.mutate.isOk
    match a.mutate with
    | .ok _ =>
      let c := fetchDocuments c a.documents
      showNotification c "Document deleted successfully!" "success"
    | .fail _ => showNotification c "Failed to delete document" "error"
  else
    c

/-- The function `handleSelectDocument`. -/
def handleSelectDocument (c : Client) (document : Document) : Client :=
  let c := { c with currentDocument := some document }
  { c with currentView := .editor }

/-- The function `handleNewDocument`. -/
def handleNewDocument (c : Client) : Client :=
  let c := { c with currentDocument := none }
  { c with currentView := .editor }

/-- The function `handleCancel`. -/
def handleCancel (c : Client) : Client :=
  let c := { c with currentView := .list }
  { c with currentDocument := none }

/-! ## The document editor -/

/-- The characters `String.prototype.trim` removes: the white space and the
line terminators of ECMAScript. -/
def isJsWhitespace (ch : Char) : Bool :=
  let n := ch.toNat
  n = 0x09 || n = 0x0A || n = 0x0B || n = 0x0C || n = 0x0D || n = 0x20 || n = 0xA0 ||
  n = 0x1680 || (0x2000 ≤ n && n ≤ 0x200A) || n = 0x2028 || n = 0x2029 || n = 0x202F ||
  n = 0x205F || n = 0x3000 || n = 0xFEFF

/-- The method `trim` on the characters of a string. -/
def trimChars (cs : List Char) : List Char :=
  (cs.dropWhile isJsWhitespace).rdropWhile isJsWhitespace

/-- The method `String.prototype.trim`. -/
def jsTrim (s : String) : String :=
  ⟨trimChars s.data⟩

/-- The function `handleSave` of `DocumentEditor`: the call of `onSave` it
makes, if any, for the draft `title`, `content`. -/
def DocumentEditor.handleSave (title content : String) : Option DocumentData :=
  if jsTrim title ≠ "" then
    some { title := jsTrim title, content := content }
  else
    none

/-- The save button of the editor as `App` renders it, with
`onSave={handleSaveDocument}`. -/
def DocumentEditor.save (c : Client) (title content : String) (a : MutationAnswers) : Client :=
  match DocumentEditor.handleSave title content with
  | some documentData => handleSaveDocument c documentData a
  | none => c

/-! ## The page: the mount effect and what happens after it -/

/-- The client together with the two requests of the mount effect, which are
sent without `await` and answered later. -/
structure Page where
  client : Client
  pendingMe : Option Pending
  pendingDocs : Option Pending

/-- The effect `useEffect(..., [])` of `App`: with a persisted token it sets the
header and calls `fetchUser()` and `fetchDocuments()`, neither awaited. -/
def mount (c : Client) : Page :=
  if tokenTruthy c.token then
    let c := { c with authHeader := c.token.map bearer }
    { client := c
      pendingMe := some (c.request .get .me none)
      pendingDocs := some (c.request .get .documents none) }
  else
    { client := c, pendingMe := none, pendingDocs := none }

/-- The page after loading with the given content of `localStorage`. -/
def Page.load (persisted : Option String) : Page :=
  mount (initialClient persisted)

/-- A handler of `App` run from its call to its end. -/
inductive Action where
  | login (d : LoginData) (a : LoginAnswers)
  | logout
  | save (documentData : DocumentData) (a : MutationAnswers)
  | delete (documentId : String) (confirmed : Bool) (a : MutationAnswers)
  | select (document : Document)
  | new
  | cancel

/-- Run a handler. -/
def perform (c : Client) : Action → Client
  | .login d a => handleLogin c d a
  | .logout => logout c
  | .save documentData a => handleSaveDocument c documentData a
  | .delete documentId confirmed a => handleDeleteDocument c documentId confirmed a
  | .select document => handleSelectDocument c document
  | .new => handleNewDocument c
  | .cancel => handleCancel c

/-- What can happen on the page: a handler runs, or a request of the mount
effect is answered. -/
inductive Event where
  | act (a : Action)
  | meAnswer (answer : Outcome User)
  | docsAnswer (answer : Outcome (List Document))

/-- One event on the page.  An answer with no request pending does nothing. -/
def Page.step (p : Page) : Event → Page
  | .act a => { p with client := perform p.client a }
  | .meAnswer answer =>
    match p.pendingMe with
    | some r => { p with client := fetchUserResume (p.client.record r answer.isOk) answer
                         pendingMe := none }
    | none => p
  | .docsAnswer answer =>
    match p.pendingDocs with
    | some r => { p with client := fetchDocumentsResume (p.client.record r answer.isOk) answer
                         pendingDocs := none }
    | none => p

/-- Run a sequence of events. -/
def Page.run (p : Page) (events : List Event) : Page :=
  events.foldl Page.step p

/-! ## Reading the log -/

/-- The exchanges a handler has added to the log of `before`. -/
def sentSince (before after : Client) : List Exchange :=
  after.log.drop before.log.length

/-- Whether an exchange is a `POST /login`. -/
def Exchange.isLogin (x : Exchange) : Bool :=
  x.req.method = .post && x.req.endpoint = .login

/-- Whether an exchange is a `GET /documents`. -/
def Exchange.isDocumentsFetch (x : Exchange) : Bool :=
  x.req.method = .get && x.req.endpoint = .documents

/-- Whether an exchange is a `GET /me`. -/
def Exchange.isMe (x : Exchange) : Bool :=
  x.req.method = .get && x.req.endpoint = .me

/-! ## Sample data -/

/-- A client after a page load without persisted token. -/
def freshClient : Client :=
  initialClient none

/-- A rejected call with the given status and body. -/
def httpError (status : Nat) (data : JsVal) : HttpError :=
  { response := some { status := status, data := data } }

/-- A rejected call without response (the network is down). -/
def networkError : HttpError :=
  { response := none }

/-- Sample credentials of a registration. -/
def aliceRegisters : LoginData :=
  { username := "alice", password := "pw123", pin := "1234", isRegistering := true }

/-- Sample credentials of a login. -/
def aliceLogsIn : LoginData :=
  { username := "alice", password := "pw123", pin := "1234", isRegistering := false }

/-- Sample user. -/
def alice : User :=
  { username := "alice" }

/-- Sample document. -/
def notes : Document :=
  { id := "7", title := "Notes", content := "body", updated_at := "2024-01-01T00:00:00" }

/-! ## Exchanges and sample answers used in the statements -/

/-- The `POST /register` that `handleLogin` sends from the client `c`. -/
def registerExchange (c : Client) (d : LoginData) (ok : Bool) : Exchange :=
  { req := { method := .post, endpoint := .register, auth := c.authHeader
             body := some (.credentials d.username d.password d.pin) }
    userSet := c.user.isSome
    ok := ok }

/-- The `POST /login` that `handleLogin` sends from the client `c`. -/
def loginExchange (c : Client) (d : LoginData) (ok : Bool) : Exchange :=
  { req := { method := .post, endpoint := .login, auth := c.authHeader
             body := some (.credentials d.username d.password d.pin) }
    userSet := c.user.isSome
    ok := ok }

/-- Whether `handleLogin` gets as far as sending `POST /login`: it is not
registering, or `POST /register` succeeded. -/
def reachesLogin (d : LoginData) (a : LoginAnswers) : Bool :=
  !d.isRegistering || a.register.isOk

/-- The client on which `handleLogin` starts its login step. -/
def beforeLoginStep (c : Client) (d : LoginData) : Client :=
  if d.isRegistering then
    ({ c with isLoading := true, error := .str "" } : Client).send .post .register
      (some (.credentials d.username d.password d.pin)) true
  else
    { c with isLoading := true, error := .str "" }

/-- Sample answers: the registration is rejected with status 422 and the empty
array as `detail`; the other answers would all be successes. -/
def emptyDetail : LoginAnswers :=
  { register := .fail (httpError 422 (.obj [("detail", .arr [])]))
    login := .ok "t", me := .ok alice, documents := .ok [] }

/-- Sample answers: a login the backend rejects with status 401. -/
def wrongPin : LoginAnswers :=
  { register := .ok ()
    login := .fail (httpError 401 (.obj [("detail", .str "Invalid credentials")]))
    me := .ok alice
    documents := .ok [] }

/-- Sample answers: login and `GET /me` succeed, `GET /documents` fails. -/
def documentsDown : LoginAnswers :=
  { register := .ok (), login := .ok "t", me := .ok alice
    documents := .fail (httpError 500 .null) }

/-- The `GET /me` that `fetchUser` sends from the client `c`. -/
def meExchange (c : Client) (ok : Bool) : Exchange :=
  { req := { method := .get, endpoint := .me, auth := c.authHeader, body := none }
    userSet := c.user.isSome
    ok := ok }

/-! ## The most recent login attempt -/

/-- Whether an action is a run of `handleLogin`. -/
def Action.isLogin : Action → Bool
  | .login _ _ => true
  | _ => false

/-- Whether an action is a run of `logout`. -/
def Action.isLogout : Action → Bool
  | .logout => true
  | _ => false

/-- The most recent login attempt of a sequence of actions, with the actions
that follow it. -/
def lastLogin : List Action → Option (LoginData × LoginAnswers × List Action)
  | [] => none
  | x :: rest =>
    match lastLogin rest with
    | some found => some found
    | none =>
      match x with
      | .login d a => some (d, a, rest)
      | _ => none

/-- The words of the specification: the most recent login attempt returned
success, for the given reading of success, and no logout occurred after it. -/
def authenticatedBySpec (succeeded : LoginData → LoginAnswers → Bool)
    (actions : List Action) : Bool :=
  match lastLogin actions with
  | some (d, a, after) => succeeded d a && !after.any Action.isLogout
  | none => false

/-- A login attempt returned success: `POST /login` was sent and resolved. -/
def loginReturned (d : LoginData) (a : LoginAnswers) : Bool :=
  reachesLogin d a && a.login.isOk

/-- A login attempt returned success and `GET /me` confirmed its token. -/
def loginValidated (d : LoginData) (a : LoginAnswers) : Bool :=
  reachesLogin d a && a.login.isOk && a.me.isOk

/-- Sample answers: the login succeeds and `GET /me` then fails. -/
def meDown : LoginAnswers :=
  { register := .ok (), login := .ok "t", me := .fail networkError, documents := .ok [] }

/-- Sample answers: everything succeeds and the user has no document. -/
def allFine : LoginAnswers :=
  { register := .ok (), login := .ok "t", me := .ok alice, documents := .ok [] }

/-! ## The session and the answers of `GET /me` -/

/-- Whether an exchange is a `GET /me` that carried the header of the token `t`
and succeeded. -/
def Exchange.validates (t : String) (x : Exchange) : Bool :=
  x.isMe && x.req.auth == some (bearer t) && x.ok

/-- A token is stored and a `GET /me` sent with it has succeeded. -/
def credentialValidated (c : Client) : Bool :=
  match c.token with
  | some t => c.log.any (Exchange.validates t)
  | none => false

/-- Whether an event is a run of `handleLogin` or of `logout`. -/
def Event.touchesSession : Event → Bool
  | .act a => a.isLogin || a.isLogout
  | _ => false

/-- No `handleLogin` and no `logout` runs while the `GET /me` of the mount
effect is waiting for its answer. -/
def orderly (p : Page) : List Event → Bool
  | [] => true
  | e :: rest => (p.pendingMe.isNone || !e.touchesSession) && orderly (p.step e) rest

/-- Sample events: the page loads with a persisted token, a login whose own
`GET /me` fails runs to its end, and then the `GET /me` of the mount effect is
answered with success. -/
def staleAnswer : List Event :=
  [.act (.login aliceLogsIn meDown), .meAnswer (.ok alice)]

/-- Sample events: both requests of the mount effect are answered, then the
user saves, logs out and logs in again. -/
def sampleEvents : List Event :=
  [.docsAnswer (.ok [notes]), .meAnswer (.ok alice),
    .act (.save { title := "Notes", content := "body" }
      { mutate := .ok (), documents := .ok [notes] }),
    .act .logout, .act (.login aliceLogsIn allFine)]

/-! ## Exchanges of the document handlers -/

/-- The request with which `handleSaveDocument` mutates: a `PUT` on the current
document when there is one, a `POST /documents` otherwise. -/
def saveExchange (c : Client) (documentData : DocumentData) (ok : Bool) : Exchange :=
  match c.currentDocument with
  | some doc =>
    { req := { method := .put, endpoint := .document doc.id, auth := c.authHeader
               body := some (.document documentData) }
      userSet := c.user.isSome
      ok := ok }
  | none =>
    { req := { method := .post, endpoint := .documents, auth := c.authHeader
               body := some (.document documentData) }
      userSet := c.user.isSome
      ok := ok }

/-- The `DELETE` that `handleDeleteDocument` sends. -/
def deleteExchange (c : Client) (documentId : String) (ok : Bool) : Exchange :=
  { req := { method := .delete, endpoint := .document documentId, auth := c.authHeader
             body := none }
    userSet := c.user.isSome
    ok := ok }

/-- The `GET /documents` that `fetchDocuments` sends from the client `c`. -/
def documentsExchange (c : Client) (ok : Bool) : Exchange :=
  { req := { method := .get, endpoint := .documents, auth := c.authHeader, body := none }
    userSet := c.user.isSome
    ok := ok }

/-- Sample answers: everything succeeds and the user has one document. -/
def withNotes : LoginAnswers :=
  { register := .ok (), login := .ok "t", me := .ok alice, documents := .ok [notes] }

/-- Sample client: alice is logged in and sees her one document. -/
def signedIn : Client :=
  handleLogin freshClient aliceLogsIn withNotes

/-- Sample draft of a new document. -/
def newDraft : DocumentData :=
  { title := "Plans", content := "more" }

/-- Sample answers: the mutation succeeds and the refresh after it fails. -/
def refreshDown : MutationAnswers :=
  { mutate := .ok (), documents := .fail networkError }

/-- Sample answers: the mutation succeeds and the refresh returns two documents. -/
def refreshed : MutationAnswers :=
  { mutate := .ok ()
    documents := .ok [notes, { id := "8", title := "Plans", content := "more",
                               updated_at := "2024-01-02T00:00:00" }] }

/-- The invariant that links the user, the stored token and the answered
`GET /me` requests while no session handler overtakes the mount effect. -/
structure SessionInv (p : Page) : Prop where
  user_valid : p.client.user.isSome = true → credentialValidated p.client = true
  no_user : p.client.user = none →
    p.client.token = none ∨ ∀ x ∈ p.client.log, (x.isMe && x.ok) = false
  pending_me : ∀ r, p.pendingMe = some r →
    p.client.user = none ∧ (∃ t, p.client.token = some t ∧ r.req.auth = some (bearer t)) ∧
      r.req.method = .get ∧ r.req.endpoint = .me
  pending_docs : ∀ r, p.pendingDocs = some r → r.req.endpoint = .documents

/-! ## The login form -/

/-- The `length` of a JavaScript string: its number of UTF-16 code units, two
for a character beyond the basic plane. -/
def jsLength (s : String) : Nat :=
  (s.data.map (fun ch => if ch.toNat < 0x10000 then 1 else 2)).sum

/-- The characters the class `\d` of a regular expression matches: `0` to `9`. -/
def isJsDigit (ch : Char) : Bool :=
  0x30 ≤ ch.toNat && ch.toNat ≤ 0x39

/-- The test `/^\d*$/.test(value)`. -/
def allDigits (value : String) : Bool :=
  value.data.all isJsDigit

/-- The array `pin.split('')`: one string for each character.  (The split is by
code unit; the PIN never holds a character beyond the basic plane, see
`handleChange`.) -/
def splitChars (s : String) : List (Option String) :=
  s.data.map (fun ch => some (String.singleton ch))

/-- The assignment `array[index] = value`: `none` is a hole, left behind when
the index lies beyond the end of the array. -/
def arraySet (xs : List (Option String)) (index : Nat) (value : String) :
    List (Option String) :=
  if index < xs.length then
    xs.set index (some value)
  else
    xs ++ List.replicate (index - xs.length) none ++ [some value]

/-- The call `array.join('')`: the elements one after the other, a hole
counting as the empty string. -/
def joinEmpty (xs : List (Option String)) : String :=
  ⟨(xs.map (fun x => (x.getD "").data)).flatten⟩

/-- The function `handleChange` of `PinInput`: the PIN after the input with
the given index has changed to `value`. -/
def PinInput.handleChange (pin : String) (index : Nat) (value : String) : String :=
  if jsLength value ≤ 1 && allDigits value then
    let newPin := splitChars pin
    let newPin := arraySet newPin index value
    joinEmpty newPin
  else
    pin

/-- The PIN after a sequence of changes, each an index and a value. -/
def PinInput.changes (pin : String) (events : List (Nat × String)) : String :=
  events.foldl (fun p e => PinInput.handleChange p e.1 e.2) pin

/-- The function `handleSubmit` of `LoginForm`: the call of `onLogin` it makes,
if any, for the state of the form. -/
def LoginForm.handleSubmit (username password pin : String) (isRegistering : Bool) :
    Option LoginData :=
  if username ≠ "" ∧ password ≠ "" ∧ jsLength pin = 4 then
    some { username := username, password := password, pin := pin
           isRegistering := isRegistering }
  else
    none

/-- The submit of the login form as `App` renders it, with
`onLogin={handleLogin}`. -/
def LoginForm.submit (c : Client) (username password pin : String) (isRegistering : Bool)
    (a : LoginAnswers) : Client :=
  match LoginForm.handleSubmit username password pin isRegistering with
  | some d => handleLogin c d a
  | none => c

/-- Sample changes: the four inputs filled in order. -/
def typed1234 : List (Nat × String) :=
  [(0, "1"), (1, "2"), (2, "3"), (3, "4")]

/-- Sample changes: the last input first, a letter that is refused, a digit
removed again and three more digits. -/
def typedOutOfOrder : List (Nat × String) :=
  [(3, "9"), (0, "x"), (0, ""), (2, "7"), (0, "4"), (1, "12"), (1, "5")]

/-! ## The notification and its timer -/

/-- The delay of the `setTimeout` in `Notification`, in milliseconds. -/
def autoDismissDelay : Nat :=
  5000

/-- The client on the screen: the time in milliseconds, and the time at which
the pending timeout of the `Notification` component fires, if one is pending. -/
structure Screen where
  client : Client
  now : Nat
  timer : Option Nat

/-- Whether `App` renders the `Notification` component: it returns the login
form when `!user`, and renders `notification && <Notification ... />`. -/
def Screen.showsNotification (s : Screen) : Bool :=
  s.client.user.isSome && s.client.notification.isSome

/-- The effect of `Notification` after a render of `App`.  Its dependency is
`onClose`, which is `hideNotification`, a function `App` creates anew at every
render: while the component is rendered, every render of `App` runs the cleanup
(`clearTimeout`) and sets a new timeout; when the component is no longer
rendered, the cleanup alone runs. -/
def Screen.render (s : Screen) : Screen :=
  if s.showsNotification then
    { s with timer := some (s.now + autoDismissDelay) }
  else
    { s with timer := none }

/-- What happens on the screen. -/
inductive ScreenEvent where
  | show (message type : String)
  | close
  | select (document : Document)
  | wait (ms : Nat)

/-- One event on the screen.  `show` is a call of `showNotification`, which
writes a new object into the state of `App` and so renders it.  `close` is a
click on the button of the notification, possible while it is rendered.
`select` is a click on a document of the list, possible while the list is
rendered; it changes `currentView` and so renders `App`.  `wait` lets time
pass: a timeout that comes due calls `onClose`, and the render that follows
removes the component. -/
def Screen.step (s : Screen) : ScreenEvent → Screen
  | .show message type =>
    ({ s with client := showNotification s.client message type } : Screen).render
  | .close =>
    if s.showsNotification then
      ({ s with client := hideNotification s.client } : Screen).render
    else
      s
  | .select document =>
    if s.client.user.isSome && s.client.currentView = .list then
      ({ s with client := handleSelectDocument s.client document } : Screen).render
    else
      s
  | .wait ms =>
    match s.timer with
    | some due =>
      if due ≤ s.now + ms then
        { client := hideNotification s.client, now := s.now + ms, timer := none }
      else
        { s with now := s.now + ms }
    | none => { s with now := s.now + ms }

/-- Run a sequence of events on the screen. -/
def Screen.run (s : Screen) (events : List ScreenEvent) : Screen :=
  events.foldl Screen.step s

/-- Sample screen: alice has just logged in and sees her document list. -/
def signedInScreen : Screen :=
  Screen.render { client := signedIn, now := 0, timer := none }

/-- Sample screen: the login form of a fresh page. -/
def loginScreen : Screen :=
  { client := freshClient, now := 0, timer := none }

/-- Sample events: two notifications one second apart, and a click on a
document three seconds after the second one. -/
def clickWhileShown : List ScreenEvent :=
  [.show "first" "info", .wait 1000, .show "second" "success", .wait 3000, .select notes,
    .wait 2000]

/-- Sample events: two notifications one second apart and nothing else for
five seconds. -/
def shownAndLeft : List ScreenEvent :=
  [.show "first" "info", .wait 1000, .show "second" "success", .wait 5000]

/-! ## The session over the events of a page -/

/-- The handler runs among the events of a page, in order. -/
def actionsOf : List Event → List Action
  | [] => []
  | .act a :: rest => a :: actionsOf rest
  | _ :: rest => actionsOf rest

/-- Whether the `GET /me` of the mount effect, once answered, succeeded: the
outcome of the first answer to it. -/
def mountMeSucceeded : List Event → Bool
  | [] => false
  | .meAnswer answer :: _ => answer.isOk
  | _ :: rest => mountMeSucceeded rest

/-- The session the mount effect restores: a token was stored when the page
loaded, the `GET /me` sent with it has succeeded, and there was neither a login
attempt nor a logout. -/
def restoredByMount (persisted : Option String) (events : List Event) : Bool :=
  tokenTruthy persisted && mountMeSucceeded events &&
    !(actionsOf events).any Action.isLogin && !(actionsOf events).any Action.isLogout

/-- Every login attempt among the events starts with `user` unset: `App` renders
the login form, the only caller of `handleLogin`, only when `!user`. -/
def loginsFromForm (p : Page) : List Event → Bool
  | [] => true
  | .act a :: rest =>
    (!a.isLogin || p.client.user.isNone) && loginsFromForm (p.step (.act a)) rest
  | e :: rest => loginsFromForm (p.step e) rest

/-- Sample events on a page loaded with a stored token: both requests of the
mount effect are answered, then a save, a logout, a rejected login, a login
whose token `GET /me` refuses, a successful login and a cancel. -/
def sampleSession : List Event :=
  [.meAnswer (.ok alice), .docsAnswer (.ok [notes]),
    .act (.save { title := "Notes", content := "body" }
      { mutate := .ok (), documents := .ok [notes] }),
    .act .logout, .act (.login aliceLogsIn wrongPin), .act (.login aliceLogsIn meDown),
    .act (.login aliceLogsIn allFine), .act .cancel]

/-- Sample events: the stored token is confirmed and nothing else happens but a
click on a document. -/
def restoredSession : List Event :=
  [.docsAnswer (.ok [notes]), .meAnswer (.ok alice), .act (.select notes)]

/-! ## The awaits one at a time

The handlers above run from their call to their end.  Here every `await` of
`App` is a point at which the call is suspended, so that other calls and the
answers to other requests can run in between, as they do in the browser. -/

/-- The answer of the backend to one request: a failure, or the success of a
`POST /register` or of a mutation, of `POST /login`, of `GET /me`, of
`GET /documents`. -/
inductive Reply where
  | fail (err : HttpError)
  | done
  | token (accessToken : String)
  | user (data : User)
  | documents (data : List Document)

/-- The answer as the result of a `POST /register` or of a mutation. -/
def Reply.asDone : Reply → Option (Outcome Unit)
  | .fail err => some (.fail err)
  | .done => some (.ok ())
  | _ => none

/-- The answer as the result of a `POST /login`. -/
def Reply.asToken : Reply → Option (Outcome String)
  | .fail err => some (.fail err)
  | .token accessToken => some (.ok accessToken)
  | _ => none

/-- The answer as the result of a `GET /me`. -/
def Reply.asUser : Reply → Option (Outcome User)
  | .fail err => some (.fail err)
  | .user data => some (.ok data)
  | _ => none

/-- The answer as the result of a `GET /documents`. -/
def Reply.asDocuments : Reply → Option (Outcome (List Document))
  | .fail err => some (.fail err)
  | .documents data => some (.ok data)
  | _ => none

/-- The `await` at which a call is suspended: the four of `handleLogin`, the
two of `handleSaveDocument` and of `handleDeleteDocument`, and the one of each
of the two calls the mount effect makes without `await`. -/
inductive Await where
  | register (d : LoginData)
  | login (d : LoginData)
  | loginMe (d : LoginData)
  | loginDocuments (d : LoginData)
  | save
  | saveDocuments
  | delete
  | deleteDocuments
  | mountMe
  | mountDocuments

/-- A suspended call: where it waits, and the request it waits for. -/
structure Suspended where
  point : Await
  request : Pending

/-- The client with its suspended calls (a finished call leaves an empty slot,
so that a call keeps its index) and every request sent so far, oldest first. -/
structure Live where
  client : Client
  waiting : List (Option Suspended)
  sent : List Pending

/-- A call of a handler of `App`. -/
inductive Call where
  | login (d : LoginData)
  | logout
  | save (documentData : DocumentData)
  | delete (documentId : String) (confirmed : Bool)
  | select (document : Document)
  | new
  | cancel

/-- What happens in the browser: a handler is called, or the request of the
suspended call with the given index is answered. -/
inductive LiveEvent where
  | call (c : Call)
  | answer (index : Nat) (r : Reply)

/-- The body of a `POST /register` or `POST /login`. -/
def credentialsOf (d : LoginData) : Option Body :=
  some (.credentials d.username d.password d.pin)

/-- The `catch (registerError)` block of `handleLogin` and what follows it. -/
def registerFailed (c : Client) (registerError : HttpError) : Client :=
  match registerErrorMessage registerError with
  | some message =>
    let c := { c with error := message }
    let c := { c with isLoading := false }
    { c with isLoading := false }
  | none =>
    let c := { c with error := .str "An unexpected error occurred. Please try again." }
    { c with isLoading := false }

/-- Resume a suspended call with the answer to its request: the client after
the call has run to its next `await` or to its end, and the call as it is
suspended again, if it is.  `none` when the answer is none to this request. -/
def Suspended.resume (s : Suspended) (c : Client) (r : Reply) :
    Option (Client × Option Suspended) :=
  match s.point with
  | .register d =>
    r.asDone.map fun answer =>
      let c := c.record s.request answer.isOk
      match answer with
      | .ok _ => (c, some { point := .login d, request := c.request .post .login (credentialsOf d) })
      | .fail registerError => (registerFailed c registerError, none)
  | .login d =>
    r.asToken.map fun answer =>
      let c := c.record s.request answer.isOk
      match answer with
      | .ok access_token =>
        let c := { c with token := some access_token }
        let c := { c with authHeader := some (bearer access_token) }
        (c, some { point := .loginMe d, request := c.request .get .me none })
      | .fail loginError =>
        let c := { c with error := loginErrorMessage loginError }
        ({ c with isLoading := false }, none)
  | .loginMe d =>
    r.asUser.map fun answer =>
      let c := fetchUserResume (c.record s.request answer.isOk) answer
      (c, some { point := .loginDocuments d, request := c.request .get .documents none })
  | .loginDocuments d =>
    r.asDocuments.map fun answer =>
      let c := fetchDocumentsResume (c.record s.request answer.isOk) answer
      let c := { c with error := .str "" }
      let c := showNotification c ("Welcome back, " ++ d.username ++ "!") "success"
      ({ c with isLoading := false }, none)
  | .save =>
    r.asDone.map fun answer =>
      let c := c.record s.request answer.isOk
      match answer with
      | .ok _ => (c, some { point := .saveDocuments, request := c.request .get .documents none })
      | .fail _ =>
        let c := { c with error := .str "Failed to save document" }
        ({ c with isLoading := false }, none)
  | .saveDocuments =>
    r.asDocuments.map fun answer =>
      let c := fetchDocumentsResume (c.record s.request answer.isOk) answer
      let c := { c with currentView := .list }
      let c := { c with currentDocument := none }
      let c := showNotification c "Document saved successfully!" "success"
      ({ c with isLoading := false }, none)
  | .delete =>
    r.asDone.map fun answer =>
      let c := c.record s.request answer.isOk
      match answer with
      | .ok _ =>
        (c, some { point := .deleteDocuments, request := c.request .get .documents none })
      | .fail _ => (showNotification c "Failed to delete document" "error", none)
  | .deleteDocuments =>
    r.asDocuments.map fun answer =>
      let c := fetchDocumentsResume (c.record s.request answer.isOk) answer
      (showNotification c "Document deleted successfully!" "success", none)
  | .mountMe =>
    r.asUser.map fun answer => (fetchUserResume (c.record s.request answer.isOk) answer, none)
  | .mountDocuments =>
    r.asDocuments.map fun answer =>
      (fetchDocumentsResume (c.record s.request answer.isOk) answer, none)

/-- Suspend a new call at its first `await`: its request is sent. -/
def Live.suspend (l : Live) (c : Client) (s : Suspended) : Live :=
  { client := c, waiting := l.waiting ++ [some s], sent := l.sent ++ [s.request] }

/-- A handler is called and runs to its first `await`, or to its end when it
has none. -/
def Live.call (l : Live) : Call → Live
  | .login d =>
    let c := { l.client with isLoading := true }
    let c := { c with error := .str "" }
    if d.isRegistering then
      l.suspend c { point := .register d, request := c.request .post .register (credentialsOf d) }
    else
      l.suspend c { point := .login d, request := c.request .post .login (credentialsOf d) }
  | .logout => { l with client := logout l.client }
  | .save documentData =>
    let c := { l.client with isLoading := true }
    let c := { c with error := .str "" }
    match c.currentDocument with
    | some doc =>
      l.suspend c { point := .save
                    request := c.request .put (.document doc.id) (some (.document documentData)) }
    | none =>
      l.suspend c { point := .save
                    request := c.request .post .documents (some (.document documentData)) }
  | .delete documentId confirmed =>
    if confirmed then
      l.suspend l.client
        { point := .delete, request := l.client.request .delete (.document documentId) none }
    else
      l
  | .select document => { l with client := handleSelectDocument l.client document }
  | .new => { l with client := handleNewDocument l.client }
  | .cancel => { l with client := handleCancel l.client }

/-- The request of a suspended call is answered and the call runs on.  An
answer to an empty slot, or one that is none to the request, does nothing. -/
def Live.answer (l : Live) (index : Nat) (r : Reply) : Live :=
  match l.waiting[index]? with
  | some (some s) =>
    match s.resume l.client r with
    | some (c, some next) =>
      { client := c, waiting := l.waiting.set index (some next)
        sent := l.sent ++ [next.request] }
    | some (c, none) => { client := c, waiting := l.waiting.set index none, sent := l.sent }
    | none => l
  | _ => l

/-- One event in the browser. -/
def Live.step (l : Live) : LiveEvent → Live
  | .call c => l.call c
  | .answer index r => l.answer index r

/-- Run a sequence of events. -/
def Live.run (l : Live) (events : List LiveEvent) : Live :=
  events.foldl Live.step l

/-- The page after loading: the two calls of the mount effect are suspended. -/
def Live.load (persisted : Option String) : Live :=
  let p := Page.load persisted
  let calls : List Suspended :=
    (p.pendingMe.map fun r => { point := .mountMe, request := r }).toList ++
      (p.pendingDocs.map fun r => { point := .mountDocuments, request := r }).toList
  { client := p.client, waiting := calls.map some, sent := calls.map (·.request) }

/-- The requests an event sends from the state `l`. -/
def Live.sentBy (l : Live) (e : LiveEvent) : List Pending :=
  (l.step e).sent.drop l.sent.length

/-- Whether a request is a `GET /documents`. -/
def Pending.isDocumentsFetch (p : Pending) : Bool :=
  p.req.method = .get && p.req.endpoint = .documents

/-- The answer of the backend as a reply. -/
def Outcome.asReply {α : Type} (ok : α → Reply) : Outcome α → Reply
  | .ok data => ok data
  | .fail err => .fail err

/-- The events of a `handleLogin` that no other event interrupts: the call,
then the answers to its own requests, one after the other.  `index` is the
slot the call takes. -/
def loginUninterrupted (index : Nat) (d : LoginData) (a : LoginAnswers) : List LiveEvent :=
  [.call (.login d)] ++
    (if d.isRegistering then [.answer index (a.register.asReply fun _ => .done)] else []) ++
    (if reachesLogin d a then
      [.answer index (a.login.asReply .token)] ++
        (if a.login.isOk then
          [.answer index (a.me.asReply .user), .answer index (a.documents.asReply .documents)]
        else [])
    else [])

/-- The events of a `handleSaveDocument` that no other event interrupts. -/
def saveUninterrupted (index : Nat) (documentData : DocumentData) (a : MutationAnswers) :
    List LiveEvent :=
  [.call (.save documentData), .answer index (a.mutate.asReply fun _ => .done)] ++
    (if a.mutate.isOk then [.answer index (a.documents.asReply .documents)] else [])

/-- The events of a `handleDeleteDocument` that no other event interrupts. -/
def deleteUninterrupted (index : Nat) (documentId : String) (confirmed : Bool)
    (a : MutationAnswers) : List LiveEvent :=
  [.call (.delete documentId confirmed)] ++
    (if confirmed then
      [.answer index (a.mutate.asReply fun _ => .done)] ++
        (if a.mutate.isOk then [.answer index (a.documents.asReply .documents)] else [])
    else [])

/-- Sample events on a page loaded with an expired token: the login form is
submitted, `POST /login` succeeds, the `GET /me` of the mount effect fails
while `handleLogin` waits for its own, which then succeeds. -/
def mountOvertakes : List LiveEvent :=
  [.call (.login aliceLogsIn), .answer 2 (.token "t"), .answer 0 (.fail (httpError 401 .null)),
    .answer 2 (.user alice)]

/-- Sample events: a save is started and the user logs out before the `POST`
is answered. -/
def logoutWhileSaving : List LiveEvent :=
  [.call (.save newDraft), .call .logout, .answer 0 .done]

/-- What holds of the suspended calls in every state the browser reaches: a
call that waits for `POST /login` has sent a `POST /login`, and a call of
`handleLogin` that waits for `GET /me` has seen its `POST /login` succeed. -/
structure LiveInv (l : Live) : Prop where
  login_request : ∀ s d, some s ∈ l.waiting → s.point = .login d →
    s.request.req.method = .post ∧ s.request.req.endpoint = .login
  login_succeeded : ∀ s d, some s ∈ l.waiting → s.point = .loginMe d →
    ∃ x ∈ l.client.log, x.isLogin = true ∧ x.ok = true

/-- Sample events: `mountOvertakes` up to the moment at which `handleLogin`
waits for its own `GET /me`, the header already deleted. -/
def beforeOwnMe : List LiveEvent :=
  [.call (.login aliceLogsIn), .answer 2 (.token "t"), .answer 0 (.fail (httpError 401 .null))]

/-- Sample request: a `GET /documents` without header, sent with the user set. -/
def headerlessFetch : Pending :=
  { req := { method := .get, endpoint := .documents, auth := none, body := none }
    userSet := true }

/-- Sample request: a `GET /documents` without header and without user. -/
def anonymousFetch : Pending :=
  { req := { method := .get, endpoint := .documents, auth := none, body := none }
    userSet := false }

/-- Sample state: alice is logged in and nothing is pending. -/
def signedInLive : Live :=
  { client := signedIn, waiting := [], sent := [] }

/-! # Theorems -/

/-! ## Registration failure (C1) -/

/-- What `handleLogin` sends when the registration fails. -/
theorem handleLogin_sent_of_register_failure (c : Client) (d : LoginData) (a : LoginAnswers)
    (e : HttpError) (hreg : d.isRegistering = true) (hfail : a.register = .fail e) :
    sentSince c (handleLogin c d a) = [registerExchange c d false] := by
  unfold handleLogin
  simp only [hreg, hfail, if_true]
  cases registerErrorMessage e <;>
    simp [sentSince, Client.send, Client.record, Client.request, registerExchange,
      Outcome.isOk]

/-- Claim C1: when `handleLogin` is called with `isRegistering = true` and
`POST /register` fails, whatever the status and the body of the failure, the
only request sent is that `POST /register` (so no `POST /login` is sent), and
the stored token, the authorization header and the user are left as they were. -/
theorem handleLogin_register_failure_no_login (c : Client) (d : LoginData) (a : LoginAnswers)
    (e : HttpError) (hreg : d.isRegistering = true) (hfail : a.register = .fail e) :
    sentSince c (handleLogin c d a) = [registerExchange c d false] ∧
    (∀ x ∈ sentSince c (handleLogin c d a), x.isLogin = false) ∧
    (handleLogin c d a).token = c.token ∧
    (handleLogin c d a).authHeader = c.authHeader ∧
    (handleLogin c d a).user = c.user := by
  have hlog := handleLogin_sent_of_register_failure c d a e hreg hfail
  refine ⟨hlog, ?_, ?_, ?_, ?_⟩
  · intro x hx
    rw [hlog] at hx
    simp only [List.mem_singleton] at hx
    subst hx
    simp [Exchange.isLogin, registerExchange]
  all_goals
    unfold handleLogin
    simp only [hreg, hfail, if_true]
    cases registerErrorMessage e <;> simp [Client.send, Client.record]

/-- Claim C1 at a registration rejected with status 422 and the empty array as
`detail`, on which the `catch` block itself throws. -/
theorem handleLogin_register_failure_no_login_witness :
    sentSince freshClient (handleLogin freshClient aliceRegisters emptyDetail) =
      [registerExchange freshClient aliceRegisters false] ∧
    (∀ x ∈ sentSince freshClient (handleLogin freshClient aliceRegisters emptyDetail),
      x.isLogin = false) ∧
    (handleLogin freshClient aliceRegisters emptyDetail).token = freshClient.token ∧
    (handleLogin freshClient aliceRegisters emptyDetail).authHeader = freshClient.authHeader ∧
    (handleLogin freshClient aliceRegisters emptyDetail).user = freshClient.user :=
  handleLogin_register_failure_no_login freshClient aliceRegisters emptyDetail
    (httpError 422 (.obj [("detail", .arr [])])) rfl rfl

/-! ## Reaching `POST /login` -/

theorem handleLogin_of_reachesLogin (c : Client) (d : LoginData) (a : LoginAnswers)
    (h : reachesLogin d a = true) :
    handleLogin c d a = loginStep (beforeLoginStep c d) d a := by
  unfold handleLogin beforeLoginStep
  cases hd : d.isRegistering
  · simp
  · cases hr : a.register with
    | ok u => simp [Outcome.isOk]
    | fail e => simp [reachesLogin, hd, hr, Outcome.isOk] at h

/-! ## Login failure (C7) -/

/-- Claim C7: when `handleLogin` sends `POST /login` and it fails, the error
state is the invalid-credentials text for status 401 and the generic login
text for every other failure; the stored token, the authorization header and
the user are left as they were, and neither `GET /me` nor `GET /documents` is
sent. -/
theorem handleLogin_login_failure (c : Client) (d : LoginData) (a : LoginAnswers)
    (e : HttpError) (hsent : reachesLogin d a = true) (hfail : a.login = .fail e) :
    ((e.response.map (·.status)) = some 401 →
      (handleLogin c d a).error =
        .str "Invalid credentials. Please check your username, password, and PIN.") ∧
    ((e.response.map (·.status)) ≠ some 401 →
      (handleLogin c d a).error = .str "Login failed. Please try again.") ∧
    (handleLogin c d a).token = c.token ∧
    (handleLogin c d a).authHeader = c.authHeader ∧
    (handleLogin c d a).user = c.user ∧
    (∀ x ∈ sentSince c (handleLogin c d a), x.isMe = false ∧ x.isDocumentsFetch = false) := by
  rw [handleLogin_of_reachesLogin c d a hsent]
  cases hd : d.isRegistering <;>
    simp [beforeLoginStep, loginStep, hfail, loginErrorMessage, Client.send, Client.record,
      Client.request, sentSince, Exchange.isMe, Exchange.isDocumentsFetch, hd]

/-- Claim C7 at a login with a wrong PIN, answered with status 401. -/
theorem handleLogin_login_failure_witness :
    (handleLogin freshClient aliceLogsIn wrongPin).error =
        .str "Invalid credentials. Please check your username, password, and PIN." ∧
    (handleLogin freshClient aliceLogsIn wrongPin).token = none ∧
    (handleLogin freshClient aliceLogsIn wrongPin).user = none :=
  have h := handleLogin_login_failure freshClient aliceLogsIn wrongPin
    (httpError 401 (.obj [("detail", .str "Invalid credentials")])) rfl rfl
  ⟨h.1 rfl, h.2.2.1, h.2.2.2.2.1⟩

/-! ## Logout (C8) -/

/-- Claim C8: from every state `logout` removes the token and the
authorization header, sets `user` to null, `documents` to the empty list, the
view to the list and `currentDocument` to null, and sends no request; a
`fetchUser` whose `GET /me` fails leaves exactly the state `logout` leaves,
apart from the logged `GET /me`. -/
theorem logout_clears_session (c : Client) :
    (logout c).token = none ∧
    (logout c).authHeader = none ∧
    (logout c).user = none ∧
    (logout c).documents = [] ∧
    (logout c).currentView = .list ∧
    (logout c).currentDocument = none ∧
    (logout c).log = c.log ∧
    (∀ e : HttpError, fetchUserResume c (.fail e) = logout c) ∧
    (∀ e : HttpError,
      fetchUser c (.fail e) = { logout c with log := c.log ++ [meExchange c false] }) := by
  refine ⟨rfl, rfl, rfl, rfl, rfl, rfl, rfl, fun _ => rfl, fun _ => rfl⟩

/-! ## Declined delete (C10) -/

/-- Claim C10: when the confirmation is declined, `handleDeleteDocument`
returns the client as it was: every state of `App`, the session and the log
of requests are unchanged, so no request is sent. -/
theorem handleDeleteDocument_declined (c : Client) (documentId : String)
    (a : MutationAnswers) :
    handleDeleteDocument c documentId false a = c ∧
    sentSince c (handleDeleteDocument c documentId false a) = [] := by
  constructor
  · rfl
  · simp [handleDeleteDocument, sentSince]

/-! ## Login with a failing document fetch (C4) -/

/-- Claim C4 fails on the code: after `POST /login` and `GET /me` succeeded and
`GET /documents` failed, the user is set, `fetchDocuments` has written
"Failed to load documents" into `error`, and the `setError('')` that follows
it in `handleLogin` has wiped it again. -/
theorem handleLogin_documents_failure_error_wiped :
    (handleLogin freshClient aliceLogsIn documentsDown).user = some alice ∧
    (∀ (c : Client) (e : HttpError),
      (fetchDocuments c (.fail e)).error = .str "Failed to load documents") ∧
    (handleLogin freshClient aliceLogsIn documentsDown).error = .str "" ∧
    (handleLogin freshClient aliceLogsIn documentsDown).error ≠
      .str "Failed to load documents" := by
  refine ⟨rfl, fun _ _ => rfl, rfl, ?_⟩
  intro h
  have h2 : (JsVal.str "" : JsVal) = .str "Failed to load documents" := h
  injection h2 with h3
  exact absurd h3 (by decide)

/-! ## The session over the events of a page (C2) -/

/-- After `handleLogin` from a state without user, the user is set exactly when
`POST /login` was sent and resolved and `GET /me` resolved. -/
theorem handleLogin_user_isSome (c : Client) (d : LoginData) (a : LoginAnswers)
    (hc : c.user = none) :
    (handleLogin c d a).user.isSome = loginValidated d a := by
  cases hreach : reachesLogin d a
  · have hd : d.isRegistering = true := by
      cases h : d.isRegistering <;> simp [reachesLogin, h] at hreach ⊢
    cases hr : a.register with
    | ok u => simp [reachesLogin, hr, Outcome.isOk] at hreach
    | fail e =>
      unfold handleLogin
      simp only [hd, hr, if_true]
      cases registerErrorMessage e <;>
        simp [loginValidated, hreach, Client.send, Client.record, hc]
  · rw [handleLogin_of_reachesLogin c d a hreach]
    cases hl : a.login <;> cases hm : a.me <;> cases hd : d.isRegistering <;>
      simp [loginValidated, hreach, loginStep, hl, hm, Outcome.isOk, beforeLoginStep,
        fetchUser, fetchUserResume, fetchDocuments, fetchDocumentsResume, showNotification,
        logout, Client.send, Client.record, hc, hd] <;>
      cases a.documents <;> simp

/-- The handlers other than `handleLogin` and `logout` leave the session alone. -/
theorem perform_user_of_other (c : Client) (x : Action) (hlogin : x.isLogin = false)
    (hlogout : x.isLogout = false) :
    (perform c x).user = c.user ∧ (perform c x).token = c.token ∧
      (perform c x).authHeader = c.authHeader := by
  cases x with
  | login d a => simp [Action.isLogin] at hlogin
  | logout => simp [Action.isLogout] at hlogout
  | save documentData a =>
    simp only [perform, handleSaveDocument]
    cases c.currentDocument <;> cases a.mutate <;> cases a.documents <;>
      simp [fetchDocuments, fetchDocumentsResume, showNotification, Client.send, Client.record]
  | delete documentId confirmed a =>
    simp only [perform, handleDeleteDocument]
    cases confirmed <;> cases a.mutate <;> cases a.documents <;>
      simp [fetchDocuments, fetchDocumentsResume, showNotification, Client.send, Client.record]
  | select document => simp [perform, handleSelectDocument]
  | new => simp [perform, handleNewDocument]
  | cancel => simp [perform, handleCancel]

/-- There is a most recent login attempt exactly when there is a login attempt. -/
theorem lastLogin_isSome (actions : List Action) :
    (lastLogin actions).isSome = actions.any Action.isLogin := by
  induction actions with
  | nil => rfl
  | cons x rest ih =>
    cases hlast : lastLogin rest with
    | some found =>
      rw [hlast] at ih
      simp only [lastLogin, hlast, List.any_cons, ← ih]
      simp
    | none =>
      rw [hlast] at ih
      cases x <;> simp [lastLogin, hlast, Action.isLogin, ← ih]

/-- The user after the events of a page on which no session handler overtakes
the mount effect and every login attempt starts without user. -/
theorem run_user_isSome (events : List Event) :
    ∀ p : Page, (p.pendingMe.isSome = true → p.client.user = none) →
      orderly p events = true → loginsFromForm p events = true →
      (p.run events).client.user.isSome =
        match lastLogin (actionsOf events) with
        | some (d, a, after) => loginValidated d a && !after.any Action.isLogout
        | none =>
          (if p.pendingMe.isSome then mountMeSucceeded events else p.client.user.isSome) &&
            !(actionsOf events).any Action.isLogout := by
  induction events with
  | nil =>
    intro p hp _ _
    cases hpend : p.pendingMe.isSome
    · simp [Page.run, actionsOf, lastLogin, hpend]
    · simp [Page.run, actionsOf, lastLogin, hpend, mountMeSucceeded, hp hpend]
  | cons e rest ih =>
    intro p hp hord hform
    simp only [orderly, Bool.and_eq_true] at hord
    have hrun : p.run (e :: rest) = (p.step e).run rest := rfl
    rw [hrun]
    cases e with
    | meAnswer answer =>
      have hform2 : loginsFromForm (p.step (.meAnswer answer)) rest = true := hform
      cases hpend : p.pendingMe with
      | none =>
        have hstep : p.step (.meAnswer answer) = p := by simp [Page.step, hpend]
        rw [hstep] at hform2 hord ⊢
        rw [ih p hp hord.2 hform2]
        simp [actionsOf, hpend]
      | some r =>
        have hpend2 : (p.step (.meAnswer answer)).pendingMe = none := by
          simp [Page.step, hpend]
        have huser : (p.step (.meAnswer answer)).client.user.isSome = answer.isOk := by
          cases answer <;>
            simp [Page.step, hpend, fetchUserResume, logout, Client.record, Outcome.isOk]
        rw [ih _ (by simp [hpend2]) hord.2 hform2]
        simp [actionsOf, hpend, hpend2, huser, mountMeSucceeded]
    | docsAnswer answer =>
      have hform2 : loginsFromForm (p.step (.docsAnswer answer)) rest = true := hform
      have hpend2 : (p.step (.docsAnswer answer)).pendingMe = p.pendingMe := by
        cases hd : p.pendingDocs <;> simp [Page.step, hd]
      have huser : (p.step (.docsAnswer answer)).client.user = p.client.user := by
        cases hd : p.pendingDocs <;> cases answer <;>
          simp [Page.step, hd, fetchDocumentsResume, Client.record]
      rw [ih _ (by rw [hpend2, huser]; exact hp) hord.2 hform2]
      simp [actionsOf, hpend2, huser, mountMeSucceeded]
    | act x =>
      simp only [loginsFromForm, Bool.and_eq_true] at hform
      have hpend2 : (p.step (.act x)).pendingMe = p.pendingMe := rfl
      cases hlogin : x.isLogin
      · cases hlogout : x.isLogout
        · have huser : (p.step (.act x)).client.user = p.client.user :=
            (perform_user_of_other p.client x hlogin hlogout).1
          rw [ih _ (by rw [hpend2, huser]; exact hp) hord.2 hform.2]
          cases hlast : lastLogin (actionsOf rest) with
          | some found => simp [actionsOf, lastLogin, hlast]
          | none =>
            have hnone : lastLogin (x :: actionsOf rest) = none := by
              cases x <;> simp [lastLogin, hlast, Action.isLogin] at hlogin ⊢
            simp only [actionsOf]
            rw [hnone]
            simp [hpend2, huser, mountMeSucceeded, hlogout]
        · have hpending : p.pendingMe = none := by
            simpa [Event.touchesSession, hlogin, hlogout] using hord.1
          cases x <;> simp [Action.isLogout] at hlogout
          have huser : (p.step (.act .logout)).client.user = none := rfl
          rw [ih _ (fun _ => huser) hord.2 hform.2]
          cases hlast : lastLogin (actionsOf rest) with
          | some found => simp [actionsOf, lastLogin, hlast]
          | none => simp [actionsOf, lastLogin, hlast, hpend2, hpending, huser, Action.isLogout]
      · have hpending : p.pendingMe = none := by
          simpa [Event.touchesSession, hlogin] using hord.1
        cases x <;> simp [Action.isLogin] at hlogin
        rename_i d a
        have hnouser : p.client.user = none := by
          have := hform.1
          simpa [Action.isLogin] using this
        have huser : (p.step (.act (.login d a))).client.user.isSome = loginValidated d a :=
          handleLogin_user_isSome p.client d a hnouser
        have hp2 : (p.step (.act (.login d a))).pendingMe.isSome = true →
            (p.step (.act (.login d a))).client.user = none := by
          intro h
          rw [hpend2, hpending] at h
          simp at h
        rw [ih _ hp2 hord.2 hform.2]
        cases hlast : lastLogin (actionsOf rest) with
        | some found => simp [actionsOf, lastLogin, hlast]
        | none => simp [actionsOf, lastLogin, hlast, hpend2, hpending, huser]

/-- Claim C2 as stated fails.  A login attempt whose `POST /login` returned
success and whose `GET /me` then failed, with no logout after it, leaves the
user unset.  On a page loaded with a stored token the answer to the `GET /me` of
the mount effect sets the user without any login attempt; and when that answer
arrives after a rejected login attempt, the user is set although the most
recent login attempt failed. -/
theorem authenticated_iff_last_login_returned_fails :
    (authenticatedBySpec loginReturned (actionsOf [.act (.login aliceLogsIn meDown)]) = true ∧
      ((Page.load none).run [.act (.login aliceLogsIn meDown)]).client.user = none) ∧
    (authenticatedBySpec loginReturned (actionsOf [.meAnswer (.ok alice)]) = false ∧
      ((Page.load (some "t1")).run [.meAnswer (.ok alice)]).client.user = some alice) ∧
    (authenticatedBySpec loginReturned
        (actionsOf [.act (.login aliceLogsIn wrongPin), .meAnswer (.ok alice)]) = false ∧
      ((Page.load (some "t1")).run
        [.act (.login aliceLogsIn wrongPin), .meAnswer (.ok alice)]).client.user =
        some alice) := by
  refine ⟨⟨rfl, rfl⟩, ⟨rfl, rfl⟩, ⟨rfl, rfl⟩⟩

/-- Claim C2, amended: on every page, loaded with or without a stored token, and
over every sequence of answers to the requests of the mount effect and of
complete handler runs in which no `handleLogin` and no `logout` runs while the `GET /me`
of the mount effect is pending and every login attempt starts without user (the
login form is rendered only then), the user is set if and only if either the
most recent login attempt had `POST /login` and `GET /me` both succeed and no
logout occurred after it, or there was no login attempt and no logout and the
`GET /me` that the mount effect sent with the stored token has succeeded. -/
theorem authenticated_iff_last_login_validated (persisted : Option String)
    (events : List Event) (hord : orderly (Page.load persisted) events = true)
    (hform : loginsFromForm (Page.load persisted) events = true) :
    ((Page.load persisted).run events).client.user.isSome =
      (authenticatedBySpec loginValidated (actionsOf events) ||
        restoredByMount persisted events) := by
  have hload : (Page.load persisted).pendingMe.isSome = tokenTruthy persisted := by
    unfold Page.load mount
    cases h : tokenTruthy (initialClient persisted).token <;>
      simp [h] <;> simpa [initialClient] using h
  have huser : (Page.load persisted).client.user = none := by
    unfold Page.load mount
    cases h : tokenTruthy (initialClient persisted).token <;> simp [h, initialClient]
  rw [run_user_isSome events (Page.load persisted) (fun _ => huser) hord hform]
  have hsome := lastLogin_isSome (actionsOf events)
  unfold authenticatedBySpec restoredByMount
  cases hlast : lastLogin (actionsOf events) with
  | some found =>
    rw [hlast] at hsome
    simp [← hsome]
  | none =>
    rw [hlast] at hsome
    cases ht : tokenTruthy persisted <;> simp [hload, huser, ht, ← hsome]

/-- Claim C2, amended, on a page loaded with a stored token: on the sample
events, which end with a successful login and a cancel, and on a session that
the mount effect restores without any login. -/
theorem authenticated_iff_last_login_validated_witness :
    orderly (Page.load (some "t1")) sampleSession = true ∧
    loginsFromForm (Page.load (some "t1")) sampleSession = true ∧
    ((Page.load (some "t1")).run sampleSession).client.user.isSome =
      (authenticatedBySpec loginValidated (actionsOf sampleSession) ||
        restoredByMount (some "t1") sampleSession) ∧
    authenticatedBySpec loginValidated (actionsOf sampleSession) = true ∧
    ((Page.load (some "t1")).run restoredSession).client.user.isSome =
      (authenticatedBySpec loginValidated (actionsOf restoredSession) ||
        restoredByMount (some "t1") restoredSession) ∧
    restoredByMount (some "t1") restoredSession = true :=
  ⟨rfl, rfl, authenticated_iff_last_login_validated (some "t1") sampleSession rfl rfl, rfl,
    authenticated_iff_last_login_validated (some "t1") restoredSession rfl rfl, rfl⟩

/-! ## The session and the answers of `GET /me` (C3) -/

/-- What the handlers other than `handleLogin` and `logout` add to the log is
no `GET /me`. -/
theorem perform_log_of_other (c : Client) (x : Action) (hlogin : x.isLogin = false)
    (hlogout : x.isLogout = false) :
    ∃ extra, (perform c x).log = c.log ++ extra ∧ ∀ y ∈ extra, y.isMe = false := by
  cases x with
  | login d a => simp [Action.isLogin] at hlogin
  | logout => simp [Action.isLogout] at hlogout
  | save documentData a =>
    simp only [perform, handleSaveDocument]
    cases c.currentDocument <;> cases a.mutate <;> cases a.documents <;>
      simp [fetchDocuments, fetchDocumentsResume, showNotification, Client.send, Client.record,
        Client.request, Exchange.isMe, List.append_assoc]
  | delete documentId confirmed a =>
    simp only [perform, handleDeleteDocument]
    cases confirmed <;> cases a.mutate <;> cases a.documents <;>
      simp [fetchDocuments, fetchDocumentsResume, showNotification, Client.send, Client.record,
        Client.request, Exchange.isMe, List.append_assoc]
  | select document => exact ⟨[], by simp [perform, handleSelectDocument]⟩
  | new => exact ⟨[], by simp [perform, handleNewDocument]⟩
  | cancel => exact ⟨[], by simp [perform, handleCancel]⟩

/-- The session after `handleLogin`: a validated login stores a token that a
logged `GET /me` has confirmed; a login whose `GET /me` fails ends logged out;
every other run leaves the session alone and logs no `GET /me`. -/
theorem handleLogin_session (c : Client) (d : LoginData) (a : LoginAnswers) :
    (loginValidated d a = true →
      (handleLogin c d a).user.isSome = true ∧
      credentialValidated (handleLogin c d a) = true) ∧
    (loginReturned d a = true → a.me.isOk = false →
      (handleLogin c d a).user = none ∧ (handleLogin c d a).token = none) ∧
    (loginReturned d a = false →
      (handleLogin c d a).user = c.user ∧ (handleLogin c d a).token = c.token ∧
      ∃ extra, (handleLogin c d a).log = c.log ++ extra ∧ ∀ y ∈ extra, y.isMe = false) := by
  cases hreach : reachesLogin d a
  · have hd : d.isRegistering = true := by
      cases h : d.isRegistering <;> simp [reachesLogin, h] at hreach ⊢
    cases hr : a.register with
    | ok u => simp [reachesLogin, hr, Outcome.isOk] at hreach
    | fail e =>
      unfold handleLogin
      simp only [hd, hr, if_true]
      cases registerErrorMessage e <;>
        simp [loginValidated, loginReturned, hreach, Client.send, Client.record,
          Client.request, Exchange.isMe]
  · rw [handleLogin_of_reachesLogin c d a hreach]
    cases hl : a.login <;> cases hm : a.me <;> cases hd : d.isRegistering <;>
      cases hdocs : a.documents <;>
      simp [loginValidated, loginReturned, hreach, loginStep, hl, hm, hdocs, Outcome.isOk,
        beforeLoginStep, fetchUser, fetchUserResume, fetchDocuments, fetchDocumentsResume,
        showNotification, logout, Client.send, Client.record, Client.request, hd,
        credentialValidated, Exchange.validates, Exchange.isMe, List.append_assoc]

/-- A confirmed token stays confirmed when the log grows and the token stays. -/
theorem credentialValidated_append (c c2 : Client) (extra : List Exchange)
    (htoken : c2.token = c.token) (hlog : c2.log = c.log ++ extra)
    (h : credentialValidated c = true) : credentialValidated c2 = true := by
  unfold credentialValidated at h ⊢
  rw [htoken, hlog]
  cases ht : c.token with
  | none => simp [ht] at h
  | some t =>
    simp only [ht] at h
    simp only [List.any_append, h, Bool.true_or]

/-- Logging exchanges that are no `GET /me` confirms no token. -/
theorem no_validation_append (c c2 : Client) (extra : List Exchange)
    (htoken : c2.token = c.token) (hlog : c2.log = c.log ++ extra)
    (hextra : ∀ y ∈ extra, y.isMe = false)
    (h : c.token = none ∨ ∀ x ∈ c.log, (x.isMe && x.ok) = false) :
    c2.token = none ∨ ∀ x ∈ c2.log, (x.isMe && x.ok) = false := by
  rw [htoken, hlog]
  rcases h with h | h
  · exact Or.inl h
  · right
    intro x hx
    rcases List.mem_append.mp hx with hx | hx
    · exact h x hx
    · simp [hextra x hx]

/-- The invariant holds when the page has loaded. -/
theorem sessionInv_load (persisted : Option String) : SessionInv (Page.load persisted) := by
  unfold Page.load mount
  cases persisted with
  | none =>
    refine ⟨?_, ?_, ?_, ?_⟩ <;> simp [initialClient, tokenTruthy]
  | some t =>
    by_cases ht : t = ""
    · refine ⟨?_, ?_, ?_, ?_⟩ <;> simp [initialClient, tokenTruthy, ht]
    · refine ⟨?_, ?_, ?_, ?_⟩ <;>
        simp [initialClient, tokenTruthy, ht, Client.request]

/-- The handlers that leave the session alone keep the invariant. -/
theorem sessionInv_act_other (p : Page) (x : Action) (hinv : SessionInv p)
    (hlogin : x.isLogin = false) (hlogout : x.isLogout = false) :
    SessionInv (p.step (.act x)) := by
  obtain ⟨huser, htoken, _⟩ := perform_user_of_other p.client x hlogin hlogout
  obtain ⟨extra, hlog, hextra⟩ := perform_log_of_other p.client x hlogin hlogout
  refine ⟨?_, ?_, ?_, ?_⟩
  · intro h
    simp only [Page.step, huser] at h
    exact credentialValidated_append p.client _ extra htoken hlog (hinv.user_valid h)
  · intro h
    simp only [Page.step, huser] at h
    exact no_validation_append p.client _ extra htoken hlog hextra (hinv.no_user h)
  · intro r hr
    simp only [Page.step] at hr ⊢
    rw [huser, htoken]
    exact hinv.pending_me r hr
  · intro r hr
    exact hinv.pending_docs r hr

/-- A `logout` with no `GET /me` pending keeps the invariant. -/
theorem sessionInv_act_logout (p : Page) (hinv : SessionInv p) (hpending : p.pendingMe = none) :
    SessionInv (p.step (.act .logout)) := by
  refine ⟨?_, ?_, ?_, ?_⟩
  · simp [Page.step, perform, logout]
  · intro _
    exact Or.inl rfl
  · intro r hr
    simp [Page.step, hpending] at hr
  · intro r hr
    exact hinv.pending_docs r hr

/-- A `handleLogin` with no `GET /me` pending keeps the invariant. -/
theorem sessionInv_act_login (p : Page) (d : LoginData) (a : LoginAnswers) (hinv : SessionInv p)
    (hpending : p.pendingMe = none) : SessionInv (p.step (.act (.login d a))) := by
  obtain ⟨hvalid, hrefused, hother⟩ := handleLogin_session p.client d a
  refine ⟨?_, ?_, ?_, ?_⟩
  · intro h
    simp only [Page.step, perform] at h ⊢
    cases hret : loginReturned d a
    · obtain ⟨huser, htoken, extra, hlog, _⟩ := hother hret
      rw [huser] at h
      exact credentialValidated_append p.client _ extra htoken hlog (hinv.user_valid h)
    · cases hme : a.me.isOk
      · rw [(hrefused hret hme).1] at h
        simp at h
      · have hv : loginValidated d a = true := by
          simp only [loginReturned, Bool.and_eq_true] at hret
          simp [loginValidated, hret.1, hret.2, hme]
        exact (hvalid hv).2
  · intro h
    simp only [Page.step, perform] at h ⊢
    cases hret : loginReturned d a
    · obtain ⟨huser, htoken, extra, hlog, hextra⟩ := hother hret
      rw [huser] at h
      exact no_validation_append p.client _ extra htoken hlog hextra (hinv.no_user h)
    · cases hme : a.me.isOk
      · exact Or.inl (hrefused hret hme).2
      · have hv : loginValidated d a = true := by
          simp only [loginReturned, Bool.and_eq_true] at hret
          simp [loginValidated, hret.1, hret.2, hme]
        have hsome := (hvalid hv).1
        rw [h] at hsome
        simp at hsome
  · intro r hr
    simp [Page.step, hpending] at hr
  · intro r hr
    exact hinv.pending_docs r hr

/-- The answer to the `GET /me` of the mount effect keeps the invariant. -/
theorem sessionInv_meAnswer (p : Page) (answer : Outcome User) (hinv : SessionInv p) :
    SessionInv (p.step (.meAnswer answer)) := by
  cases hp : p.pendingMe with
  | none =>
    have : p.step (.meAnswer answer) = p := by simp [Page.step, hp]
    rw [this]
    exact hinv
  | some r =>
    obtain ⟨_, ⟨t, htoken, hauth⟩, hget, hme⟩ := hinv.pending_me r hp
    refine ⟨?_, ?_, ?_, ?_⟩
    · intro _
      cases answer with
      | ok u =>
        simp [Page.step, hp, fetchUserResume, Client.record, credentialValidated, htoken,
          Exchange.validates, Exchange.isMe, hget, hme, hauth, Outcome.isOk]
      | fail err =>
        rename_i h
        simp [Page.step, hp, fetchUserResume, logout] at h
    · intro h
      cases answer with
      | ok u => simp [Page.step, hp, fetchUserResume] at h
      | fail err =>
        left
        simp [Page.step, hp, fetchUserResume, logout]
    · intro r2 hr2
      simp [Page.step, hp] at hr2
    · intro r2 hr2
      have hr3 : p.pendingDocs = some r2 := by simpa [Page.step, hp] using hr2
      exact hinv.pending_docs r2 hr3

/-- The answer to the `GET /documents` of the mount effect keeps the invariant. -/
theorem sessionInv_docsAnswer (p : Page) (answer : Outcome (List Document))
    (hinv : SessionInv p) : SessionInv (p.step (.docsAnswer answer)) := by
  cases hp : p.pendingDocs with
  | none =>
    have : p.step (.docsAnswer answer) = p := by simp [Page.step, hp]
    rw [this]
    exact hinv
  | some r =>
    have hdocs := hinv.pending_docs r hp
    have huser : (p.step (.docsAnswer answer)).client.user = p.client.user := by
      cases answer <;> simp [Page.step, hp, fetchDocumentsResume, Client.record]
    have htoken : (p.step (.docsAnswer answer)).client.token = p.client.token := by
      cases answer <;> simp [Page.step, hp, fetchDocumentsResume, Client.record]
    have hlog : (p.step (.docsAnswer answer)).client.log =
        p.client.log ++ [{ req := r.req, userSet := r.userSet, ok := answer.isOk }] := by
      cases answer <;> simp [Page.step, hp, fetchDocumentsResume, Client.record]
    have hextra : ∀ y ∈ [({ req := r.req, userSet := r.userSet, ok := answer.isOk } : Exchange)],
        y.isMe = false := by
      intro y hy
      simp only [List.mem_singleton] at hy
      subst hy
      simp [Exchange.isMe, hdocs]
    have hme : (p.step (.docsAnswer answer)).pendingMe = p.pendingMe := by
      simp [Page.step, hp]
    refine ⟨?_, ?_, ?_, ?_⟩
    · intro h
      rw [huser] at h
      exact credentialValidated_append p.client _ _ htoken hlog (hinv.user_valid h)
    · intro h
      rw [huser] at h
      exact no_validation_append p.client _ _ htoken hlog hextra (hinv.no_user h)
    · intro r2 hr2
      rw [hme] at hr2
      rw [huser, htoken]
      exact hinv.pending_me r2 hr2
    · intro r2 hr2
      simp [Page.step, hp] at hr2

/-- Every event of an orderly run keeps the invariant. -/
theorem sessionInv_step (p : Page) (e : Event) (hinv : SessionInv p)
    (hord : (p.pendingMe.isNone || !e.touchesSession) = true) : SessionInv (p.step e) := by
  cases e with
  | meAnswer answer => exact sessionInv_meAnswer p answer hinv
  | docsAnswer answer => exact sessionInv_docsAnswer p answer hinv
  | act x =>
    cases hlogin : x.isLogin
    · cases hlogout : x.isLogout
      · exact sessionInv_act_other p x hinv hlogin hlogout
      · have hpending : p.pendingMe = none := by
          simpa [Event.touchesSession, hlogin, hlogout] using hord
        cases x <;> simp [Action.isLogout] at hlogout
        exact sessionInv_act_logout p hinv hpending
    · have hpending : p.pendingMe = none := by
        simpa [Event.touchesSession, hlogin] using hord
      cases x <;> simp [Action.isLogin] at hlogin
      exact sessionInv_act_login p _ _ hinv hpending

/-- An orderly run keeps the invariant. -/
theorem sessionInv_run (events : List Event) :
    ∀ p : Page, SessionInv p → orderly p events = true → SessionInv (p.run events) := by
  induction events with
  | nil => intro p hinv _; exact hinv
  | cons e rest ih =>
    intro p hinv hord
    simp only [orderly, Bool.and_eq_true] at hord
    exact ih (p.step e) (sessionInv_step p e hinv hord.1) hord.2

/-- Claim C3 as stated fails: the page loads with a persisted token, a login
whose own `GET /me` fails logs the client out, and the answer to the `GET /me`
of the mount effect, arriving after that, sets the user although no token is
stored any more. -/
theorem user_iff_credential_validated_fails :
    ((Page.load (some "t1")).run staleAnswer).client.user = some alice ∧
    ((Page.load (some "t1")).run staleAnswer).client.token = none ∧
    ¬ (((Page.load (some "t1")).run staleAnswer).client.user.isSome =
        credentialValidated ((Page.load (some "t1")).run staleAnswer).client) := by
  refine ⟨rfl, rfl, ?_⟩
  decide

/-- Claim C3, amended: in every state the page reaches from its load through
answers to the requests of the mount effect and runs of the handlers, provided
no `handleLogin` and no `logout` runs while the `GET /me` of the mount effect is
pending, the user is set if and only if a token is stored and a `GET /me` sent
with the header of that token has succeeded. -/
theorem user_iff_credential_validated (persisted : Option String) (events : List Event)
    (hord : orderly (Page.load persisted) events = true) :
    ((Page.load persisted).run events).client.user.isSome =
      credentialValidated ((Page.load persisted).run events).client := by
  have hinv := sessionInv_run events (Page.load persisted) (sessionInv_load persisted) hord
  cases huser : ((Page.load persisted).run events).client.user with
  | some u =>
    have h := hinv.user_valid (by simp [huser])
    simp [h]
  | none =>
    rcases hinv.no_user huser with h | h
    · simp [credentialValidated, h]
    · simp only [Option.isSome_none, credentialValidated]
      cases ((Page.load persisted).run events).client.token with
      | none => rfl
      | some t =>
        symm
        simp only [List.any_eq_false]
        intro x hx
        have hx2 := h x hx
        simp only [Exchange.validates]
        cases hme : x.isMe <;> cases hok : x.ok <;> simp [hme, hok] at hx2 ⊢

/-- Claim C3, amended, on the sample events, which end with the user set and
a confirmed token. -/
theorem user_iff_credential_validated_witness :
    orderly (Page.load (some "t1")) sampleEvents = true ∧
    ((Page.load (some "t1")).run sampleEvents).client.user.isSome =
      credentialValidated ((Page.load (some "t1")).run sampleEvents).client ∧
    credentialValidated ((Page.load (some "t1")).run sampleEvents).client = true :=
  ⟨rfl, user_iff_credential_validated (some "t1") sampleEvents rfl, by decide⟩

/-! ## The document list after a mutation (C5) -/

/-- Claim C5 as stated fails: a save whose `POST` succeeds and whose
`GET /documents` fails ends with the document list it started with, which is
the response of no `GET /documents` sent after the mutation. -/
theorem documents_equal_refresh_fails :
    sentSince signedIn (handleSaveDocument signedIn newDraft refreshDown) =
      [saveExchange signedIn newDraft true, documentsExchange signedIn false] ∧
    (handleSaveDocument signedIn newDraft refreshDown).documents = [notes] ∧
    ¬ ∃ docs, refreshDown.documents = .ok docs ∧
        (handleSaveDocument signedIn newDraft refreshDown).documents = docs := by
  refine ⟨by decide, rfl, ?_⟩
  rintro ⟨docs, h, _⟩
  simp [refreshDown] at h

/-- Claim C5, amended: in every `handleSaveDocument` run and every confirmed
`handleDeleteDocument` run whose mutating request succeeds, exactly one
`GET /documents` is sent, after the mutation; when it succeeds, `documents` is
its response when the handler finishes; when it fails, `documents` is what it
was before the handler and `error` is "Failed to load documents". -/
theorem documents_after_mutation (c : Client) (documentData : DocumentData)
    (documentId : String) (a : MutationAnswers) (u : Unit) (hok : a.mutate = .ok u) :
    sentSince c (handleSaveDocument c documentData a) =
      [saveExchange c documentData true, documentsExchange c a.documents.isOk] ∧
    sentSince c (handleDeleteDocument c documentId true a) =
      [deleteExchange c documentId true, documentsExchange c a.documents.isOk] ∧
    (∀ docs, a.documents = .ok docs →
      (handleSaveDocument c documentData a).documents = docs ∧
      (handleDeleteDocument c documentId true a).documents = docs) ∧
    (∀ e, a.documents = .fail e →
      (handleSaveDocument c documentData a).documents = c.documents ∧
      (handleSaveDocument c documentData a).error = .str "Failed to load documents" ∧
      (handleDeleteDocument c documentId true a).documents = c.documents ∧
      (handleDeleteDocument c documentId true a).error = .str "Failed to load documents") := by
  refine ⟨?_, ?_, ?_, ?_⟩
  · unfold handleSaveDocument
    cases hd : c.currentDocument <;> cases hdocs : a.documents <;>
      simp [hok, hd, hdocs, sentSince, saveExchange, documentsExchange, fetchDocuments,
        fetchDocumentsResume, showNotification, Client.send, Client.record, Client.request,
        Outcome.isOk, List.append_assoc]
  · unfold handleDeleteDocument
    cases hdocs : a.documents <;>
      simp [hok, hdocs, sentSince, deleteExchange, documentsExchange, fetchDocuments,
        fetchDocumentsResume, showNotification, Client.send, Client.record, Client.request,
        Outcome.isOk, List.append_assoc]
  · intro docs hdocs
    unfold handleSaveDocument handleDeleteDocument
    cases hd : c.currentDocument <;>
      simp [hok, hd, hdocs, fetchDocuments, fetchDocumentsResume, showNotification,
        Client.send, Client.record]
  · intro e hdocs
    unfold handleSaveDocument handleDeleteDocument
    cases hd : c.currentDocument <;>
      simp [hok, hd, hdocs, fetchDocuments, fetchDocumentsResume, showNotification,
        Client.send, Client.record]

/-- Claim C5, amended, on a save whose refresh returns two documents. -/
theorem documents_after_mutation_witness :
    refreshed.mutate = .ok () ∧
    (handleSaveDocument signedIn newDraft refreshed).documents =
      [notes, { id := "8", title := "Plans", content := "more",
                updated_at := "2024-01-02T00:00:00" }] ∧
    sentSince signedIn (handleSaveDocument signedIn newDraft refreshed) =
      [saveExchange signedIn newDraft true, documentsExchange signedIn true] :=
  have h := documents_after_mutation signedIn newDraft "7" refreshed () rfl
  ⟨rfl, (h.2.2.1 _ rfl).1, h.1⟩

/-! ## When the document list is fetched (C6) -/

/-- Claim C6 as stated fails: in a `handleLogin` whose `POST /login` succeeds and
whose `GET /me` fails, `fetchUser` logs the client out and the `GET /documents`
is sent all the same, without user and without authorization header. -/
theorem documents_fetch_only_authenticated_fails :
    sentSince freshClient (handleLogin freshClient aliceLogsIn meDown) =
      [loginExchange freshClient aliceLogsIn true,
        { req := { method := .get, endpoint := .me, auth := some "Bearer t", body := none }
          userSet := false, ok := false },
        { req := { method := .get, endpoint := .documents, auth := none, body := none }
          userSet := false, ok := true }] ∧
    ¬ ∀ x ∈ sentSince freshClient (handleLogin freshClient aliceLogsIn meDown),
        x.isDocumentsFetch = true → x.userSet = true ∨ x.req.auth.isSome = true := by
  refine ⟨by decide, ?_⟩
  decide

/-- The `GET /documents` of the handlers run from their call to their end: the
mount effect sends it only when a persisted, non-empty token exists, and then
with the header of that token; `handleLogin` sends it only after `POST /login`
succeeded, and when `GET /me` succeeded too with the user set and the header of
the token just stored; a save or a delete sends it only after its mutating
request succeeded (the delete only when confirmed), with the session the
handler started from. -/
theorem documents_fetch_uninterrupted (persisted : Option String) (c : Client) (d : LoginData)
    (a : LoginAnswers) (documentData : DocumentData) (documentId : String) (confirmed : Bool)
    (m : MutationAnswers) :
    (∀ r, (Page.load persisted).pendingDocs = some r →
      ∃ t, persisted = some t ∧ t ≠ "" ∧ r.req.auth = some (bearer t)) ∧
    (∀ x ∈ sentSince c (handleLogin c d a), x.isDocumentsFetch = true →
      ∃ t, reachesLogin d a = true ∧ a.login = .ok t ∧
        (a.me.isOk = true → x.userSet = true ∧ x.req.auth = some (bearer t))) ∧
    (∀ x ∈ sentSince c (handleSaveDocument c documentData m), x.isDocumentsFetch = true →
      m.mutate.isOk = true ∧ x.userSet = c.user.isSome ∧ x.req.auth = c.authHeader) ∧
    (∀ x ∈ sentSince c (handleDeleteDocument c documentId confirmed m),
      x.isDocumentsFetch = true →
      confirmed = true ∧ m.mutate.isOk = true ∧ x.userSet = c.user.isSome ∧
        x.req.auth = c.authHeader) := by
  refine ⟨?_, ?_, ?_, ?_⟩
  · intro r hr
    unfold Page.load mount at hr
    cases persisted with
    | none => simp [initialClient, tokenTruthy] at hr
    | some t =>
      by_cases ht : t = ""
      · simp [initialClient, tokenTruthy, ht] at hr
      · refine ⟨t, rfl, ht, ?_⟩
        simp [initialClient, tokenTruthy, ht, Client.request] at hr
        rw [← hr]
  · intro x hx hfetch
    cases hreach : reachesLogin d a
    · have hd : d.isRegistering = true := by
        cases h : d.isRegistering <;> simp [reachesLogin, h] at hreach ⊢
      cases hr : a.register with
      | ok u => simp [reachesLogin, hr, Outcome.isOk] at hreach
      | fail e =>
        have hsent := (handleLogin_sent_of_register_failure c d a e hd hr)
        rw [hsent] at hx
        simp only [List.mem_singleton] at hx
        subst hx
        simp [Exchange.isDocumentsFetch, registerExchange] at hfetch
    · rw [handleLogin_of_reachesLogin c d a hreach] at hx
      cases hl : a.login with
      | fail e =>
        cases hd : d.isRegistering <;>
          simp [loginStep, hl, beforeLoginStep, hd, sentSince, Client.send, Client.record,
            Client.request] at hx <;>
          rcases hx with rfl | rfl <;>
          simp [Exchange.isDocumentsFetch] at hfetch
      | ok t =>
        refine ⟨t, rfl, rfl, ?_⟩
        intro hme
        cases hm : a.me with
        | fail e => simp [hm, Outcome.isOk] at hme
        | ok u =>
          cases hd : d.isRegistering <;> cases hdocs : a.documents <;>
            simp [loginStep, hl, hm, hdocs, beforeLoginStep, hd, sentSince, fetchUser,
              fetchUserResume, fetchDocuments, fetchDocumentsResume, showNotification,
              Client.send, Client.record, Client.request, List.append_assoc] at hx <;>
            rcases hx with rfl | rfl | rfl | rfl <;>
            simp [Exchange.isDocumentsFetch] at hfetch ⊢
  · intro x hx hfetch
    unfold handleSaveDocument at hx
    cases hmut : m.mutate <;> cases hd : c.currentDocument <;> cases hdocs : m.documents <;>
      simp [hmut, hd, hdocs, sentSince, fetchDocuments, fetchDocumentsResume,
        showNotification, Client.send, Client.record, Client.request, Outcome.isOk,
        List.append_assoc] at hx <;>
      rcases hx with rfl | rfl <;>
      simp [Exchange.isDocumentsFetch, Outcome.isOk] at hfetch ⊢
  · intro x hx hfetch
    unfold handleDeleteDocument at hx
    cases confirmed
    · simp [sentSince] at hx
    · cases hmut : m.mutate <;> cases hdocs : m.documents <;>
        simp [hmut, hdocs, sentSince, fetchDocuments, fetchDocumentsResume,
          showNotification, Client.send, Client.record, Client.request, Outcome.isOk,
          List.append_assoc] at hx <;>
        rcases hx with rfl | rfl <;>
        simp [Exchange.isDocumentsFetch, Outcome.isOk] at hfetch ⊢

/-- A `handleLogin` that no other event interrupts leaves the client that the
handler run from its call to its end leaves. -/
theorem loginUninterrupted_client (l : Live) (d : LoginData) (a : LoginAnswers) :
    (l.run (loginUninterrupted l.waiting.length d a)).client = handleLogin l.client d a := by
  cases hd : d.isRegistering <;> cases hr : a.register <;> cases hl : a.login <;>
    cases hm : a.me <;> cases hdocs : a.documents <;>
    simp [loginUninterrupted, reachesLogin, hd, hr, hl, hm, hdocs, Outcome.isOk,
      Outcome.asReply, Live.run, Live.step, Live.call, Live.answer, Live.suspend,
      Suspended.resume, Reply.asDone, Reply.asToken, Reply.asUser, Reply.asDocuments,
      credentialsOf, registerFailed, handleLogin, loginStep, fetchUser, fetchDocuments,
      Client.send, Client.request, Client.record]

/-- A `handleSaveDocument` that no other event interrupts leaves the client
that the handler run from its call to its end leaves. -/
theorem saveUninterrupted_client (l : Live) (documentData : DocumentData)
    (a : MutationAnswers) :
    (l.run (saveUninterrupted l.waiting.length documentData a)).client =
      handleSaveDocument l.client documentData a := by
  cases hc : l.client.currentDocument <;> cases hm : a.mutate <;> cases hdocs : a.documents <;>
    simp [saveUninterrupted, hc, hm, hdocs, Outcome.isOk, Outcome.asReply, Live.run,
      Live.step, Live.call, Live.answer, Live.suspend, Suspended.resume, Reply.asDone,
      Reply.asDocuments, handleSaveDocument, fetchDocuments, Client.send, Client.request,
      Client.record]

/-- A `handleDeleteDocument` that no other event interrupts leaves the client
that the handler run from its call to its end leaves. -/
theorem deleteUninterrupted_client (l : Live) (documentId : String) (confirmed : Bool)
    (a : MutationAnswers) :
    (l.run (deleteUninterrupted l.waiting.length documentId confirmed a)).client =
      handleDeleteDocument l.client documentId confirmed a := by
  cases confirmed <;> cases hm : a.mutate <;> cases hdocs : a.documents <;>
    simp [deleteUninterrupted, hm, hdocs, Outcome.isOk, Outcome.asReply, Live.run,
      Live.step, Live.call, Live.answer, Live.suspend, Suspended.resume, Reply.asDone,
      Reply.asDocuments, handleDeleteDocument, fetchDocuments, Client.send, Client.request,
      Client.record]

/-- Resuming a call logs the answered request and nothing else. -/
theorem resume_log (s : Suspended) (c c2 : Client) (r : Reply) (next : Option Suspended)
    (h : s.resume c r = some (c2, next)) :
    ∃ ok, c2.log = c.log ++ [{ req := s.request.req, userSet := s.request.userSet, ok := ok }] := by
  unfold Suspended.resume at h
  cases hp : s.point <;> cases r <;>
    simp [hp, Reply.asDone, Reply.asToken, Reply.asUser, Reply.asDocuments, Outcome.isOk,
      Client.record, fetchUserResume, fetchDocumentsResume, showNotification, logout,
      registerFailed] at h <;>
    (try (obtain ⟨h1, _⟩ := h; subst h1)) <;>
    (try split) <;> simp

/-- Where a resumed call waits next: for `POST /login` with a `POST /login`
sent, and for the `GET /me` of `handleLogin` only after it has waited for
`POST /login` and got a success. -/
theorem resume_next (s : Suspended) (c c2 : Client) (r : Reply) (next : Suspended)
    (h : s.resume c r = some (c2, some next)) :
    (∀ d, next.point = .login d →
      next.request.req.method = .post ∧ next.request.req.endpoint = .login) ∧
    (∀ d, next.point = .loginMe d →
      (∃ d0, s.point = .login d0) ∧
      c2.log = c.log ++ [{ req := s.request.req, userSet := s.request.userSet, ok := true }]) := by
  unfold Suspended.resume at h
  cases hp : s.point <;> cases r <;>
    simp [hp, Reply.asDone, Reply.asToken, Reply.asUser, Reply.asDocuments, Outcome.isOk,
      Client.record, Client.request, registerFailed] at h <;>
    obtain ⟨h1, h2⟩ := h <;> subst h1 <;> subst h2 <;> simp

/-- A resumed call sends `GET /documents` only at three places: `handleLogin`
when its `GET /me` is answered, with the user set when the answer is a success,
and `handleSaveDocument` and `handleDeleteDocument` when their mutating request
has succeeded.  The request is sent from the client as it is then. -/
theorem resume_documents (s : Suspended) (c c2 : Client) (r : Reply) (next : Suspended)
    (h : s.resume c r = some (c2, some next))
    (hfetch : next.request.isDocumentsFetch = true) :
    next.request.req.auth = c2.authHeader ∧ next.request.userSet = c2.user.isSome ∧
    ((∃ d answer, s.point = .loginMe d ∧ r.asUser = some answer ∧
        (answer.isOk = true → next.request.userSet = true)) ∨
      (s.point = .save ∧ r.asDone = some (.ok ())) ∨
      (s.point = .delete ∧ r.asDone = some (.ok ()))) := by
  unfold Suspended.resume at h
  cases hp : s.point <;> cases r <;>
    simp [hp, Reply.asDone, Reply.asToken, Reply.asUser, Reply.asDocuments, Outcome.isOk,
      Client.record, Client.request, registerFailed, fetchUserResume, logout] at h <;>
    obtain ⟨h1, h2⟩ := h <;> subst h1 <;> subst h2 <;>
    simp [Pending.isDocumentsFetch, Reply.asUser, Reply.asDone, Outcome.isOk] at hfetch ⊢

/-- A call of a handler leaves the log alone and every call it suspends waits
for the mutation or for the first request of `handleLogin`. -/
theorem liveInv_call (l : Live) (x : Call) (hinv : LiveInv l) : LiveInv (l.call x) := by
  have hkeep : ∀ c : Client, c.log = l.client.log → ∀ w : List (Option Suspended),
      (∀ s, some s ∈ w → some s ∈ l.waiting ∨
        ((∀ d, s.point = .login d →
            s.request.req.method = .post ∧ s.request.req.endpoint = .login) ∧
          ∀ d, s.point ≠ .loginMe d)) →
      LiveInv { client := c, waiting := w, sent := (l.call x).sent } := by
    intro c hc w hw
    refine ⟨?_, ?_⟩
    · intro s d hs hp
      rcases hw s hs with h | h
      · exact hinv.login_request s d h hp
      · exact h.1 d hp
    · intro s d hs hp
      rcases hw s hs with h | h
      · rw [hc]
        exact hinv.login_succeeded s d h hp
      · exact absurd hp (h.2 d)
  cases x with
  | login d =>
    cases hd : d.isRegistering
    · have := hkeep (l.call (.login d)).client (by simp [Live.call, hd, Live.suspend])
        (l.call (.login d)).waiting (by
          intro s hs
          simp [Live.call, hd, Live.suspend] at hs
          rcases hs with hs | hs
          · exact Or.inl hs
          · right
            subst hs
            simp [Client.request])
      exact this
    · have := hkeep (l.call (.login d)).client (by simp [Live.call, hd, Live.suspend])
        (l.call (.login d)).waiting (by
          intro s hs
          simp [Live.call, hd, Live.suspend] at hs
          rcases hs with hs | hs
          · exact Or.inl hs
          · right
            subst hs
            simp)
      exact this
  | logout =>
    exact hkeep (l.call .logout).client rfl (l.call .logout).waiting (fun s hs => Or.inl hs)
  | save documentData =>
    cases hc : l.client.currentDocument <;>
    · have := hkeep (l.call (.save documentData)).client
        (by simp [Live.call, hc, Live.suspend])
        (l.call (.save documentData)).waiting (by
          intro s hs
          simp [Live.call, hc, Live.suspend] at hs
          rcases hs with hs | hs
          · exact Or.inl hs
          · right
            subst hs
            simp)
      exact this
  | delete documentId confirmed =>
    cases confirmed
    · exact hkeep (l.call (.delete documentId false)).client rfl
        (l.call (.delete documentId false)).waiting (fun s hs => Or.inl hs)
    · have := hkeep (l.call (.delete documentId true)).client
        (by simp [Live.call, Live.suspend])
        (l.call (.delete documentId true)).waiting (by
          intro s hs
          simp [Live.call, Live.suspend] at hs
          rcases hs with hs | hs
          · exact Or.inl hs
          · right
            subst hs
            simp)
      exact this
  | select document =>
    exact hkeep (l.call (.select document)).client rfl (l.call (.select document)).waiting (fun s hs => Or.inl hs)
  | new =>
    exact hkeep (l.call .new).client rfl (l.call .new).waiting (fun s hs => Or.inl hs)
  | cancel =>
    exact hkeep (l.call .cancel).client rfl (l.call .cancel).waiting (fun s hs => Or.inl hs)

/-- An answer keeps what holds of the suspended calls. -/
theorem liveInv_answer (l : Live) (index : Nat) (r : Reply) (hinv : LiveInv l) :
    LiveInv (l.answer index r) := by
  unfold Live.answer
  cases hw : l.waiting[index]? with
  | none => simpa using hinv
  | some slot =>
    cases slot with
    | none => simpa using hinv
    | some s =>
      have hs : some s ∈ l.waiting := List.getElem?_mem hw
      cases hres : s.resume l.client r with
      | none =>
        simp only [hres]
        exact hinv
      | some result =>
        obtain ⟨c2, next⟩ := result
        obtain ⟨ok, hlog⟩ := resume_log s l.client c2 r next hres
        simp only [hres]
        cases next with
        | none =>
          refine ⟨?_, ?_⟩
          · intro s2 d hs2 hp
            simp only at hs2
            rcases List.mem_or_eq_of_mem_set hs2 with h | h
            · exact hinv.login_request s2 d h hp
            · cases h
          · intro s2 d hs2 hp
            simp only at hs2 ⊢
            rcases List.mem_or_eq_of_mem_set hs2 with h | h
            · obtain ⟨x, hx, hx2⟩ := hinv.login_succeeded s2 d h hp
              exact ⟨x, by rw [hlog]; exact List.mem_append_left _ hx, hx2⟩
            · cases h
        | some next =>
          obtain ⟨hnext1, hnext2⟩ := resume_next s l.client c2 r next hres
          refine ⟨?_, ?_⟩
          · intro s2 d hs2 hp
            simp only at hs2
            rcases List.mem_or_eq_of_mem_set hs2 with h | h
            · exact hinv.login_request s2 d h hp
            · cases h
              exact hnext1 d hp
          · intro s2 d hs2 hp
            simp only at hs2 ⊢
            rcases List.mem_or_eq_of_mem_set hs2 with h | h
            · obtain ⟨x, hx, hx2⟩ := hinv.login_succeeded s2 d h hp
              exact ⟨x, by rw [hlog]; exact List.mem_append_left _ hx, hx2⟩
            · cases h
              obtain ⟨⟨d0, hd0⟩, hlog2⟩ := hnext2 d hp
              obtain ⟨hmethod, hendpoint⟩ := hinv.login_request s d0 hs hd0
              refine ⟨_, by rw [hlog2]; exact List.mem_append_right _ (List.mem_singleton.mpr rfl),
                ?_, rfl⟩
              simp [Exchange.isLogin, hmethod, hendpoint]

/-- What holds of the suspended calls holds when the page has loaded. -/
theorem liveInv_load (persisted : Option String) : LiveInv (Live.load persisted) := by
  unfold Live.load Page.load mount
  cases h : tokenTruthy (initialClient persisted).token <;>
    refine ⟨?_, ?_⟩ <;> intro s d hs hp <;> simp [h] at hs <;>
    rcases hs with hs | hs <;> subst hs <;> simp at hp

/-- What holds of the suspended calls holds in every state the browser
reaches. -/
theorem liveInv_run (events : List LiveEvent) :
    ∀ l : Live, LiveInv l → LiveInv (l.run events) := by
  induction events with
  | nil => intro l h; exact h
  | cons e rest ih =>
    intro l h
    cases e with
    | call x => exact ih _ (liveInv_call l x h)
    | answer index r => exact ih _ (liveInv_answer l index r h)

/-- Claim C6 fails also when `GET /me` succeeds.  On a page loaded with an
expired token the `GET /me` of the mount effect fails while `handleLogin` waits
for its own, and `logout` deletes the header: the `GET /documents` of
`handleLogin` leaves without header.  And a logout while a save waits for its
`POST` lets the refresh of the save leave without user and without header. -/
theorem documents_fetch_after_overtaking_logout :
    ((Live.load (some "t1")).run mountOvertakes).sent.getLast? = some headerlessFetch ∧
    (signedInLive.run logoutWhileSaving).sent.getLast? = some anonymousFetch := by
  constructor <;> decide

/-- Claim C6, amended.  In every state the browser reaches from a page load,
whatever handlers are called and in whatever order the requests are answered:
the mount effect sends `GET /documents` only when a persisted, non-empty token
exists, and then with the header of that token; after that a `GET /documents`
is sent only when a suspended call is resumed, namely `handleLogin` by the
answer to its `GET /me`, which it sends only after its `POST /login` has
succeeded, and then with the user set when that answer is a success, or
`handleSaveDocument` or `handleDeleteDocument` by the success of its mutating
request; the request carries the header and finds the user that the client has
at that moment, which nothing checks.  And when no other event interrupts the
handler, it leaves the client that its run from call to end leaves: then
`handleLogin` sends `GET /documents` after a successful `GET /me` with the
header of the token just stored, and a save or a confirmed delete sends it with
the session the handler started from. -/
theorem documents_fetch_guarded (persisted : Option String) (events : List LiveEvent)
    (e : LiveEvent) (l : Live) (d : LoginData) (a : LoginAnswers)
    (documentData : DocumentData) (documentId : String) (confirmed : Bool)
    (m : MutationAnswers) :
    (∀ q ∈ (Live.load persisted).sent, q.isDocumentsFetch = true →
      ∃ t, persisted = some t ∧ t ≠ "" ∧ q.req.auth = some (bearer t)) ∧
    (∀ q ∈ ((Live.load persisted).run events).sentBy e, q.isDocumentsFetch = true →
      q.req.auth = (((Live.load persisted).run events).step e).client.authHeader ∧
      q.userSet = (((Live.load persisted).run events).step e).client.user.isSome ∧
      ∃ index r s, e = .answer index r ∧
        ((Live.load persisted).run events).waiting[index]? = some (some s) ∧
        ((∃ d0 answer, s.point = .loginMe d0 ∧ r.asUser = some answer ∧
            (∃ x ∈ ((Live.load persisted).run events).client.log,
              x.isLogin = true ∧ x.ok = true) ∧
            (answer.isOk = true → q.userSet = true)) ∨
          (s.point = .save ∧ r.asDone = some (.ok ())) ∨
          (s.point = .delete ∧ r.asDone = some (.ok ())))) ∧
    ((l.run (loginUninterrupted l.waiting.length d a)).client = handleLogin l.client d a ∧
      ∀ x ∈ sentSince l.client (handleLogin l.client d a), x.isDocumentsFetch = true →
        ∃ t, reachesLogin d a = true ∧ a.login = .ok t ∧
          (a.me.isOk = true → x.userSet = true ∧ x.req.auth = some (bearer t))) ∧
    ((l.run (saveUninterrupted l.waiting.length documentData m)).client =
        handleSaveDocument l.client documentData m ∧
      ∀ x ∈ sentSince l.client (handleSaveDocument l.client documentData m),
        x.isDocumentsFetch = true →
        m.mutate.isOk = true ∧ x.userSet = l.client.user.isSome ∧
          x.req.auth = l.client.authHeader) ∧
    ((l.run (deleteUninterrupted l.waiting.length documentId confirmed m)).client =
        handleDeleteDocument l.client documentId confirmed m ∧
      ∀ x ∈ sentSince l.client (handleDeleteDocument l.client documentId confirmed m),
        x.isDocumentsFetch = true →
        confirmed = true ∧ m.mutate.isOk = true ∧ x.userSet = l.client.user.isSome ∧
          x.req.auth = l.client.authHeader) := by
  have hatomic := documents_fetch_uninterrupted persisted l.client d a documentData documentId
    confirmed m
  refine ⟨?_, ?_, ⟨loginUninterrupted_client l d a, hatomic.2.1⟩,
    ⟨saveUninterrupted_client l documentData m, hatomic.2.2.1⟩,
    ⟨deleteUninterrupted_client l documentId confirmed m, hatomic.2.2.2⟩⟩
  · intro q hq hfetch
    unfold Live.load Page.load mount at hq
    cases persisted with
    | none => simp [initialClient, tokenTruthy] at hq
    | some t =>
      by_cases ht : t = ""
      · simp [initialClient, tokenTruthy, ht] at hq
      · refine ⟨t, rfl, ht, ?_⟩
        simp [initialClient, tokenTruthy, ht, Client.request] at hq
        rcases hq with rfl | rfl <;> simp [Pending.isDocumentsFetch] at hfetch ⊢
  · have hinv := liveInv_run events (Live.load persisted) (liveInv_load persisted)
    generalize (Live.load persisted).run events = l0 at hinv ⊢
    intro q hq hfetch
    cases e with
    | call x =>
      exfalso
      cases x with
      | login d1 =>
        cases hd : d1.isRegistering <;>
          simp [Live.sentBy, Live.step, Live.call, Live.suspend, hd, Client.request] at hq <;>
          subst hq <;> simp [Pending.isDocumentsFetch] at hfetch
      | save data =>
        cases hc : l0.client.currentDocument <;>
          simp [Live.sentBy, Live.step, Live.call, Live.suspend, hc, Client.request] at hq <;>
          subst hq <;> simp [Pending.isDocumentsFetch] at hfetch
      | delete documentId1 confirmed1 =>
        cases confirmed1 <;>
          simp [Live.sentBy, Live.step, Live.call, Live.suspend, Client.request] at hq
        subst hq
        simp [Pending.isDocumentsFetch] at hfetch
      | logout => simp [Live.sentBy, Live.step, Live.call] at hq
      | select document => simp [Live.sentBy, Live.step, Live.call] at hq
      | new => simp [Live.sentBy, Live.step, Live.call] at hq
      | cancel => simp [Live.sentBy, Live.step, Live.call] at hq
    | answer index r =>
      simp only [Live.sentBy, Live.step, Live.answer] at hq ⊢
      cases hw : l0.waiting[index]? with
      | none => simp [hw] at hq
      | some slot =>
        cases slot with
        | none => simp [hw] at hq
        | some s =>
          have hs : some s ∈ l0.waiting := List.getElem?_mem hw
          cases hres : s.resume l0.client r with
          | none => simp [hw, hres] at hq
          | some result =>
            obtain ⟨c2, next⟩ := result
            cases next with
            | none => simp [hw, hres] at hq
            | some next =>
              simp only [hw, hres, List.drop_left, List.mem_singleton] at hq ⊢
              subst hq
              obtain ⟨hauth, huser, hgate⟩ := resume_documents s l0.client c2 r next hres hfetch
              refine ⟨hauth, huser, index, r, s, rfl, hw, ?_⟩
              rcases hgate with ⟨d0, answer, hp, hr, hset⟩ | hgate | hgate
              · exact Or.inl ⟨d0, answer, hp, hr, hinv.login_succeeded s d0 hs hp, hset⟩
              · exact Or.inr (Or.inl hgate)
              · exact Or.inr (Or.inr hgate)

/-- Claim C6, amended, on a page loaded with an expired token: when the
`GET /me` of the mount effect fails while `handleLogin` waits for its own, the
`GET /documents` that follows a successful `GET /me` finds the user set, after
a successful `POST /login`; and on a login that nothing interrupts it carries
the header of the new token. -/
theorem documents_fetch_guarded_witness :
    headerlessFetch ∈ ((Live.load (some "t1")).run beforeOwnMe).sentBy (.answer 2 (.user alice)) ∧
    (∃ x ∈ ((Live.load (some "t1")).run beforeOwnMe).client.log,
      x.isLogin = true ∧ x.ok = true) ∧
    documentsExchange signedIn true ∈
      sentSince freshClient (handleLogin freshClient aliceLogsIn withNotes) ∧
    (documentsExchange signedIn true).req.auth = some (bearer "t") := by
  have h := documents_fetch_guarded (some "t1") beforeOwnMe (.answer 2 (.user alice))
    { client := freshClient, waiting := [], sent := [] } aliceLogsIn withNotes newDraft "7" true
    refreshed
  have hmem : headerlessFetch ∈
      ((Live.load (some "t1")).run beforeOwnMe).sentBy (.answer 2 (.user alice)) := by
    decide
  have hmem2 : documentsExchange signedIn true ∈
      sentSince freshClient (handleLogin freshClient aliceLogsIn withNotes) := by decide
  obtain ⟨_, _, index, r, s, _, _, hgate⟩ := h.2.1 _ hmem rfl
  obtain ⟨t, _, hlogin, hme⟩ := h.2.2.1.2 _ hmem2 rfl
  have ht : "t" = t := by
    simpa [withNotes] using hlogin
  subst ht
  refine ⟨hmem, ?_, hmem2, (hme rfl).2⟩
  rcases hgate with ⟨_, _, _, _, hlog, _⟩ | ⟨hp, _⟩ | ⟨hp, _⟩
  · exact hlog
  · decide
  · decide

/-! ## Saving from the editor (C9) -/

/-- Trimming leaves nothing exactly when every character is white space. -/
theorem trimChars_eq_nil_iff (cs : List Char) :
    trimChars cs = [] ↔ ∀ ch ∈ cs, isJsWhitespace ch = true := by
  unfold trimChars
  rw [List.rdropWhile_eq_nil_iff]
  constructor
  · intro h
    by_cases hd : cs.dropWhile isJsWhitespace = []
    · exact List.dropWhile_eq_nil_iff.mp hd
    · have hhead := List.head_dropWhile_not isJsWhitespace cs hd
      have := h _ (List.head_mem hd)
      simp [this] at hhead
  · intro h
    rw [List.dropWhile_eq_nil_iff.mpr h]
    simp

/-- A list is what `rdropWhile` keeps followed by what `rtakeWhile` takes. -/
theorem rdropWhile_append_rtakeWhile (p : Char → Bool) (l : List Char) :
    l.rdropWhile p ++ l.rtakeWhile p = l := by
  have h : (l.reverse.takeWhile p ++ l.reverse.dropWhile p).reverse = l.reverse.reverse :=
    congrArg List.reverse (List.takeWhile_append_dropWhile p l.reverse)
  rw [List.reverse_append, List.reverse_reverse] at h
  exact h

/-- The trimmed characters sit in the original between two runs of white space,
and neither start nor end with white space. -/
theorem trimChars_spec (cs : List Char) :
    (∃ before after, cs = before ++ trimChars cs ++ after ∧
      (∀ ch ∈ before, isJsWhitespace ch = true) ∧ (∀ ch ∈ after, isJsWhitespace ch = true)) ∧
    (∀ ch, (trimChars cs).head? = some ch → isJsWhitespace ch = false) ∧
    (∀ ch, (trimChars cs).getLast? = some ch → isJsWhitespace ch = false) := by
  refine ⟨⟨cs.takeWhile isJsWhitespace, (cs.dropWhile isJsWhitespace).rtakeWhile isJsWhitespace,
    ?_, ?_, ?_⟩, ?_, ?_⟩
  · unfold trimChars
    rw [List.append_assoc, rdropWhile_append_rtakeWhile, List.takeWhile_append_dropWhile]
  · intro ch hch
    exact List.mem_takeWhile_imp hch
  · intro ch hch
    exact List.mem_rtakeWhile_imp hch
  · intro ch hch
    have hne : trimChars cs ≠ [] := by
      intro h
      simp [h] at hch
    have hpre : trimChars cs <+: cs.dropWhile isJsWhitespace := List.rdropWhile_prefix _ _
    have hd : cs.dropWhile isJsWhitespace ≠ [] := by
      intro h
      rw [h] at hpre
      exact hne (List.prefix_nil.mp hpre)
    have hhead := List.head_dropWhile_not isJsWhitespace cs hd
    have heq := hpre.head hne
    rw [List.head?_eq_head hne] at hch
    have hch2 : (trimChars cs).head hne = ch := Option.some.inj hch
    rw [← hch2, heq]
    simpa using hhead
  · intro ch hch
    have hne : trimChars cs ≠ [] := by
      intro h
      simp [h] at hch
    have hlast := List.rdropWhile_last_not isJsWhitespace (cs.dropWhile isJsWhitespace) hne
    rw [List.getLast?_eq_getLast _ hne] at hch
    have hch2 : (trimChars cs).getLast hne = ch := Option.some.inj hch
    rw [← hch2]
    simpa [trimChars] using hlast

/-- The trimmed string is empty exactly when its characters are. -/
theorem jsTrim_eq_empty_iff (s : String) : jsTrim s = "" ↔ trimChars s.data = [] := by
  unfold jsTrim
  constructor
  · intro h
    have := congrArg String.data h
    simpa using this
  · intro h
    rw [h]

/-- Claim C9: for every draft, `handleSave` of the editor calls `onSave` if and
only if the title holds a character that is no white space, that is, if the
trimmed title is not empty; the call passes the trimmed title (the title
without its leading and trailing white space) and the content unchanged; and
when the title is empty or white space only, the save button of the editor
leaves the client as it was, so neither `POST` nor `PUT` is sent. -/
theorem handleSave_calls_onSave_iff (title content : String) :
    ((DocumentEditor.handleSave title content).isSome = true ↔
      ∃ ch ∈ title.data, isJsWhitespace ch = false) ∧
    ((DocumentEditor.handleSave title content).isSome = true ↔ jsTrim title ≠ "") ∧
    (∀ d, DocumentEditor.handleSave title content = some d →
      d.content = content ∧ d.title = jsTrim title ∧
      (∃ before after, title.data = before ++ d.title.data ++ after ∧
        (∀ ch ∈ before, isJsWhitespace ch = true) ∧
        (∀ ch ∈ after, isJsWhitespace ch = true)) ∧
      (∀ ch, d.title.data.head? = some ch → isJsWhitespace ch = false) ∧
      (∀ ch, d.title.data.getLast? = some ch → isJsWhitespace ch = false)) ∧
    ((∀ ch ∈ title.data, isJsWhitespace ch = true) →
      DocumentEditor.handleSave title content = none ∧
      ∀ (c : Client) (a : MutationAnswers),
        DocumentEditor.save c title content a = c ∧
        sentSince c (DocumentEditor.save c title content a) = []) := by
  have hiff : jsTrim title ≠ "" ↔ ∃ ch ∈ title.data, isJsWhitespace ch = false := by
    rw [Ne, jsTrim_eq_empty_iff, trimChars_eq_nil_iff]
    simp
  have hsome : (DocumentEditor.handleSave title content).isSome = true ↔ jsTrim title ≠ "" := by
    unfold DocumentEditor.handleSave
    by_cases h : jsTrim title = "" <;> simp [h]
  refine ⟨hsome.trans hiff, hsome, ?_, ?_⟩
  · intro d hd
    unfold DocumentEditor.handleSave at hd
    by_cases h : jsTrim title = ""
    · simp [h] at hd
    · simp only [ne_eq, h, not_false_eq_true, if_true, Option.some.injEq] at hd
      subst hd
      exact ⟨rfl, rfl, trimChars_spec title.data⟩
  · intro hall
    have hempty : jsTrim title = "" :=
      (jsTrim_eq_empty_iff title).mpr ((trimChars_eq_nil_iff title.data).mpr hall)
    have hnone : DocumentEditor.handleSave title content = none := by
      simp [DocumentEditor.handleSave, hempty]
    refine ⟨hnone, fun c a => ?_⟩
    simp [DocumentEditor.save, hnone, sentSince]

/-- Claim C9 on a title of blanks, a tab and a line feed, and on a title with
white space around the word Notes. -/
theorem handleSave_calls_onSave_iff_witness :
    DocumentEditor.handleSave "  \t\n" "body" = none ∧
    DocumentEditor.save signedIn "  \t\n" "body" refreshed = signedIn ∧
    DocumentEditor.handleSave "  Notes \n" "body" =
      some { title := "Notes", content := "body" } :=
  have h := (handleSave_calls_onSave_iff "  \t\n" "body").2.2.2 (by decide)
  ⟨h.1, (h.2 signedIn refreshed).1, by decide⟩

/-! ## The PIN and the login form (C12) -/

/-- Joining the split of a string gives its characters back. -/
theorem joinEmpty_splitChars (cs : List Char) :
    ((cs.map (fun ch => some (String.singleton ch))).map
      (fun x : Option String => (x.getD "").data)).flatten = cs := by
  induction cs with
  | nil => rfl
  | cons ch rest ih =>
    simp only [List.map_cons, List.flatten_cons, ih]
    rfl

/-- Holes add nothing to a join. -/
theorem joinEmpty_holes (n : Nat) :
    ((List.replicate n (none : Option String)).map
      (fun x : Option String => (x.getD "").data)).flatten = [] := by
  induction n with
  | zero => rfl
  | succ k ih =>
    simp only [List.replicate_succ, List.map_cons, List.flatten_cons, ih]
    rfl

/-- Joining after an assignment inside the array: the character at the index
is replaced by the value. -/
theorem joinEmpty_set (cs : List Char) (value : String) :
    ∀ index : Nat, index < cs.length →
      (((cs.map (fun ch => some (String.singleton ch))).set index (some value)).map
        (fun x : Option String => (x.getD "").data)).flatten =
      cs.take index ++ value.data ++ cs.drop (index + 1) := by
  induction cs with
  | nil => intro index h; simp at h
  | cons ch rest ih =>
    intro index h
    cases index with
    | zero =>
      simp only [List.map_cons, List.set_cons_zero, List.flatten_cons, List.take_zero,
        List.nil_append, List.drop_succ_cons, List.drop_zero, joinEmpty_splitChars]
      rfl
    | succ k =>
      have hk : k < rest.length := by simpa using h
      simp only [List.map_cons, List.set_cons_succ, List.flatten_cons, List.take_succ_cons,
        List.drop_succ_cons, ih k hk]
      rfl

/-- The characters of the PIN after an accepted change. -/
theorem handleChange_data (pin : String) (index : Nat) (value : String)
    (haccept : (jsLength value ≤ 1 && allDigits value) = true) :
    (PinInput.handleChange pin index value).data =
      if index < pin.data.length then
        pin.data.take index ++ value.data ++ pin.data.drop (index + 1)
      else
        pin.data ++ value.data := by
  unfold PinInput.handleChange
  simp only [haccept, if_true, joinEmpty, arraySet, splitChars, List.length_map]
  by_cases h : index < pin.data.length
  · simp only [h, if_true]
    exact joinEmpty_set pin.data value index h
  · simp only [h, if_false, List.map_append, List.flatten_append, joinEmpty_splitChars,
      joinEmpty_holes, List.append_nil, List.map_cons, List.map_nil, List.flatten_cons,
      List.flatten_nil]
    rfl

/-- A value that `handleChange` accepts is empty or one digit. -/
theorem accepted_value (value : String)
    (haccept : (jsLength value ≤ 1 && allDigits value) = true) :
    value.data.length ≤ 1 ∧ ∀ ch ∈ value.data, isJsDigit ch = true := by
  simp only [Bool.and_eq_true, decide_eq_true_eq] at haccept
  obtain ⟨hlen, hdig⟩ := haccept
  constructor
  · unfold jsLength at hlen
    match hv : value.data with
    | [] => simp
    | [_] => simp
    | a :: b :: rest =>
      rw [hv] at hlen
      simp only [List.map_cons, List.sum_cons] at hlen
      have h1 : 1 ≤ (if a.toNat < 0x10000 then 1 else 2) := by split <;> omega
      have h2 : 1 ≤ (if b.toNat < 0x10000 then 1 else 2) := by split <;> omega
      omega
  · intro ch hch
    unfold allDigits at hdig
    exact List.all_eq_true.mp hdig ch hch

/-- A change through one of the four inputs keeps a PIN of at most four
digits. -/
theorem handleChange_keeps (pin : String) (index : Nat) (value : String)
    (hindex : index ≤ 3) (hlen : pin.data.length ≤ 4)
    (hdig : ∀ ch ∈ pin.data, isJsDigit ch = true) :
    (PinInput.handleChange pin index value).data.length ≤ 4 ∧
    ∀ ch ∈ (PinInput.handleChange pin index value).data, isJsDigit ch = true := by
  cases haccept : (jsLength value ≤ 1 && allDigits value)
  · have hsame : PinInput.handleChange pin index value = pin := by
      unfold PinInput.handleChange
      simp [haccept]
    rw [hsame]
    exact ⟨hlen, hdig⟩
  · obtain ⟨hvlen, hvdig⟩ := accepted_value value haccept
    rw [handleChange_data pin index value haccept]
    by_cases h : index < pin.data.length
    · simp only [h, if_true]
      constructor
      · simp only [List.length_append, List.length_take, List.length_drop]
        omega
      · intro ch hch
        simp only [List.mem_append] at hch
        rcases hch with (hch | hch) | hch
        · exact hdig ch (List.mem_of_mem_take hch)
        · exact hvdig ch hch
        · exact hdig ch (List.mem_of_mem_drop hch)
    · simp only [h, if_false]
      constructor
      · simp only [List.length_append]
        omega
      · intro ch hch
        simp only [List.mem_append] at hch
        rcases hch with hch | hch
        · exact hdig ch hch
        · exact hvdig ch hch

/-- Every sequence of changes through the four inputs keeps a PIN of at most
four digits. -/
theorem changes_keep (events : List (Nat × String)) :
    ∀ pin : String, (∀ e ∈ events, e.1 ≤ 3) → pin.data.length ≤ 4 →
      (∀ ch ∈ pin.data, isJsDigit ch = true) →
      (PinInput.changes pin events).data.length ≤ 4 ∧
      ∀ ch ∈ (PinInput.changes pin events).data, isJsDigit ch = true := by
  induction events with
  | nil => intro pin _ hlen hdig; exact ⟨hlen, hdig⟩
  | cons e rest ih =>
    intro pin hidx hlen hdig
    have hstep := handleChange_keeps pin e.1 e.2 (hidx e (by simp)) hlen hdig
    exact ih (PinInput.handleChange pin e.1 e.2)
      (fun x hx => hidx x (List.mem_cons_of_mem _ hx)) hstep.1 hstep.2

/-- The `length` of a string of digits is its number of characters. -/
theorem jsLength_of_digits (s : String) (hdig : ∀ ch ∈ s.data, isJsDigit ch = true) :
    jsLength s = s.data.length := by
  unfold jsLength
  have hone : ∀ cs : List Char, (∀ ch ∈ cs, isJsDigit ch = true) →
      (cs.map (fun ch => if ch.toNat < 0x10000 then 1 else 2)).sum = cs.length := by
    intro cs
    induction cs with
    | nil => intro _; rfl
    | cons ch rest ih =>
      intro h
      have hch := h ch (by simp)
      simp only [isJsDigit, Bool.and_eq_true, decide_eq_true_eq] at hch
      have hlt : ch.toNat < 0x10000 := by omega
      simp only [List.map_cons, List.sum_cons, hlt, if_true, List.length_cons,
        ih (fun x hx => h x (List.mem_cons_of_mem _ hx))]
      omega
  exact hone s.data hdig

/-- Claim C12: for every sequence of `handleChange` events with an index from 0
to 3 and any input value, starting from the empty PIN, the PIN is a string of
at most four decimal digits; so whenever `handleSubmit` calls `onLogin`, the
PIN it passes has exactly four characters, all decimal digits, and the
username and the password it passes are not empty; and with a PIN whose length
is not 4 or an empty username or password `onLogin` is not called, and the
submit leaves the client as it was, so no request is sent. -/
theorem pin_at_most_four_digits (events : List (Nat × String))
    (hindex : ∀ e ∈ events, e.1 ≤ 3) :
    ((PinInput.changes "" events).data.length ≤ 4 ∧
      ∀ ch ∈ (PinInput.changes "" events).data, isJsDigit ch = true) ∧
    (∀ (username password : String) (isRegistering : Bool) (d : LoginData),
      LoginForm.handleSubmit username password (PinInput.changes "" events) isRegistering =
        some d →
      d.pin = PinInput.changes "" events ∧ d.pin.data.length = 4 ∧
      (∀ ch ∈ d.pin.data, isJsDigit ch = true) ∧
      d.username = username ∧ d.username ≠ "" ∧
      d.password = password ∧ d.password ≠ "" ∧ d.isRegistering = isRegistering) ∧
    (∀ (username password : String) (isRegistering : Bool),
      (username = "" ∨ password = "" ∨ (PinInput.changes "" events).data.length ≠ 4) →
      LoginForm.handleSubmit username password (PinInput.changes "" events) isRegistering =
        none ∧
      ∀ (c : Client) (a : LoginAnswers),
        LoginForm.submit c username password (PinInput.changes "" events) isRegistering a =
          c) := by
  have hkeep := changes_keep events "" hindex (by simp) (by simp)
  have hjs := jsLength_of_digits (PinInput.changes "" events) hkeep.2
  refine ⟨hkeep, ?_, ?_⟩
  · intro username password isRegistering d hd
    unfold LoginForm.handleSubmit at hd
    by_cases hcond : username ≠ "" ∧ password ≠ "" ∧ jsLength (PinInput.changes "" events) = 4
    · rw [if_pos hcond] at hd
      simp only [Option.some.injEq] at hd
      subst hd
      exact ⟨rfl, by rw [← hjs]; exact hcond.2.2, hkeep.2, rfl, hcond.1, rfl, hcond.2.1, rfl⟩
    · rw [if_neg hcond] at hd
      cases hd
  · intro username password isRegistering hbad
    have hnone : LoginForm.handleSubmit username password (PinInput.changes "" events)
        isRegistering = none := by
      unfold LoginForm.handleSubmit
      rw [hjs]
      apply if_neg
      rintro ⟨hu, hp, hl⟩
      rcases hbad with h | h | h
      · exact hu h
      · exact hp h
      · exact h hl
    refine ⟨hnone, fun c a => ?_⟩
    simp [LoginForm.submit, hnone]

/-- Claim C12 on the four inputs filled in order, which gives the PIN 1234 and
a call of `onLogin`, and on changes that leave a PIN of two digits, with
which nothing is submitted. -/
theorem pin_at_most_four_digits_witness :
    (∀ e ∈ typed1234, e.1 ≤ 3) ∧
    PinInput.changes "" typed1234 = "1234" ∧
    (PinInput.changes "" typed1234).data.length ≤ 4 ∧
    (LoginForm.handleSubmit "alice" "pw123" (PinInput.changes "" typed1234) false).isSome =
      true ∧
    PinInput.changes "" typedOutOfOrder = "45" ∧
    LoginForm.submit freshClient "alice" "pw123" (PinInput.changes "" typedOutOfOrder) false
      allFine = freshClient :=
  have h := pin_at_most_four_digits typed1234 (by decide)
  have h2 := pin_at_most_four_digits typedOutOfOrder (by decide)
  ⟨by decide, by decide, h.1.1, by decide, by decide,
    (h2.2.2 "alice" "pw123" false (Or.inr (Or.inr (by decide)))).2 freshClient allFine⟩

/-! ## The view controller (C11) -/

/-- Claim C11: from every state, `handleNewDocument` yields the editor with no
target, `handleSelectDocument` the editor with the selected document as
target, `handleCancel` and a `handleSaveDocument` whose `POST` or `PUT`
succeeds the list with the target cleared, and a `handleSaveDocument` whose
`POST` or `PUT` fails leaves the view and the target as they were, so an
editor stays the editor of the same target. -/
theorem view_transitions (c : Client) (d : Document) (documentData : DocumentData)
    (a : MutationAnswers) :
    ((handleNewDocument c).currentView = .editor ∧
      (handleNewDocument c).currentDocument = none) ∧
    ((handleSelectDocument c d).currentView = .editor ∧
      (handleSelectDocument c d).currentDocument = some d) ∧
    ((handleCancel c).currentView = .list ∧ (handleCancel c).currentDocument = none) ∧
    (a.mutate.isOk = true →
      (handleSaveDocument c documentData a).currentView = .list ∧
      (handleSaveDocument c documentData a).currentDocument = none) ∧
    (a.mutate.isOk = false →
      (handleSaveDocument c documentData a).currentView = c.currentView ∧
      (handleSaveDocument c documentData a).currentDocument = c.currentDocument ∧
      (c.currentView = .editor →
        (handleSaveDocument c documentData a).currentView = .editor)) := by
  refine ⟨⟨rfl, rfl⟩, ⟨rfl, rfl⟩, ⟨rfl, rfl⟩, ?_, ?_⟩
  · intro hok
    unfold handleSaveDocument
    cases hm : a.mutate with
    | fail e => simp [hm, Outcome.isOk] at hok
    | ok u =>
      cases c.currentDocument <;> cases a.documents <;>
        simp [fetchDocuments, fetchDocumentsResume, showNotification, Client.send,
          Client.record]
  · intro hfail
    unfold handleSaveDocument
    cases hm : a.mutate with
    | ok u => simp [hm, Outcome.isOk] at hfail
    | fail e =>
      cases hd : c.currentDocument <;> simp [Client.send, Client.record, hd]

/-- Claim C11 on the life of one draft: alice opens her document, a save that
the backend refuses leaves her in the editor of that document, and the save
that succeeds brings her back to the list. -/
theorem view_transitions_witness :
    (handleSaveDocument (handleSelectDocument signedIn notes) newDraft
        { mutate := .fail (httpError 500 .null), documents := .ok [notes] }).currentView =
      .editor ∧
    (handleSaveDocument (handleSelectDocument signedIn notes) newDraft
        { mutate := .fail (httpError 500 .null), documents := .ok [notes] }).currentDocument =
      some notes ∧
    (handleSaveDocument (handleSelectDocument signedIn notes) newDraft refreshed).currentView =
      .list ∧
    (handleSaveDocument (handleSelectDocument signedIn notes) newDraft
        refreshed).currentDocument = none :=
  have hfail := (view_transitions (handleSelectDocument signedIn notes) notes newDraft
    { mutate := .fail (httpError 500 .null), documents := .ok [notes] }).2.2.2.2 rfl
  have hok := (view_transitions (handleSelectDocument signedIn notes) notes newDraft
    refreshed).2.2.2.1 rfl
  ⟨hfail.2.2 rfl, hfail.2.1, hok.1, hok.2⟩

/-! ## The notification and its timer (C13) -/

/-- Waiting twice is waiting once for the sum. -/
theorem wait_wait (s : Screen) (a b : Nat) :
    (s.step (.wait a)).step (.wait b) = s.step (.wait (a + b)) := by
  cases ht : s.timer with
  | none => simp [Screen.step, ht, Nat.add_assoc]
  | some due =>
    by_cases h1 : due ≤ s.now + a
    · have h2 : due ≤ s.now + (a + b) := by omega
      simp [Screen.step, ht, h1, h2, Nat.add_assoc]
    · by_cases h2 : due ≤ s.now + (a + b)
      · have h3 : due ≤ s.now + a + b := by omega
        simp [Screen.step, ht, h1, h2, h3, Nat.add_assoc]
      · have h3 : ¬ due ≤ s.now + a + b := by omega
        simp [Screen.step, ht, h1, h2, h3, Nat.add_assoc]

/-- Claim C13 as stated fails.  With the user set, a click on a document three
seconds after the second notification renders `App` and restarts the timeout:
five seconds after it was shown the notification is still held, with its
timeout three seconds ahead.  Without user, where a `handleLogin` whose
`GET /me` fails leaves a notification, no timeout is ever set and the
notification is held for good. -/
theorem notification_cleared_after_delay_fails :
    (signedInScreen.run clickWhileShown).client.notification =
      some { message := "second", type := "success" } ∧
    (signedInScreen.run clickWhileShown).now = 1000 + autoDismissDelay ∧
    (signedInScreen.run clickWhileShown).timer = some (4000 + autoDismissDelay) ∧
    (handleLogin freshClient aliceLogsIn meDown).user = none ∧
    (handleLogin freshClient aliceLogsIn meDown).notification =
      some { message := "Welcome back, alice!", type := "success" } ∧
    (loginScreen.run shownAndLeft).client.notification =
      some { message := "second", type := "success" } ∧
    (loginScreen.run shownAndLeft).timer = none := by
  refine ⟨by decide, by decide, by decide, rfl, by decide, by decide, by decide⟩

/-- Claim C13, amended: the state holds at most one notification; while the
user is set, `showNotification(m1)` followed less than 5000 ms later by
`showNotification(m2)` leaves exactly `m2` as the notification, with one
pending timeout, 5000 ms after `m2` was shown; when the timeout of `m1` would
have come due, `m2` is still held; and when `App` is not rendered again in
between, `m2` is held until 5000 ms after it was shown and cleared then, or
cleared at once by a click on its close button. -/
theorem notification_replaced_then_dismissed (s : Screen) (m1 t1 m2 t2 : String) (d : Nat)
    (huser : s.client.user.isSome = true) (hd : d < autoDismissDelay) :
    (s.run [.show m1 t1, .wait d, .show m2 t2]).client.notification =
      some { message := m2, type := t2 } ∧
    (s.run [.show m1 t1, .wait d, .show m2 t2]).now = s.now + d ∧
    (s.run [.show m1 t1, .wait d, .show m2 t2]).timer =
      some (s.now + d + autoDismissDelay) ∧
    (0 < d →
      (s.run [.show m1 t1, .wait d, .show m2 t2, .wait (autoDismissDelay - d)]).now =
        s.now + autoDismissDelay ∧
      (s.run [.show m1 t1, .wait d, .show m2 t2,
          .wait (autoDismissDelay - d)]).client.notification =
        some { message := m2, type := t2 }) ∧
    (∀ w, w < autoDismissDelay →
      (s.run [.show m1 t1, .wait d, .show m2 t2, .wait w]).client.notification =
        some { message := m2, type := t2 }) ∧
    (∀ w, autoDismissDelay ≤ w →
      (s.run [.show m1 t1, .wait d, .show m2 t2, .wait w]).client.notification = none ∧
      (s.run [.show m1 t1, .wait d, .show m2 t2, .wait w]).timer = none) ∧
    (∀ w, w < autoDismissDelay →
      (s.run [.show m1 t1, .wait d, .show m2 t2, .wait w, .close]).client.notification =
        none ∧
      (s.run [.show m1 t1, .wait d, .show m2 t2, .wait w, .close]).timer = none) := by
  have hnot : ¬ s.now + autoDismissDelay ≤ s.now + d := by omega
  refine ⟨?_, ?_, ?_, ?_, ?_, ?_, ?_⟩
  · simp [Screen.run, Screen.step, Screen.render, Screen.showsNotification, showNotification,
      huser, hnot]
  · simp [Screen.run, Screen.step, Screen.render, Screen.showsNotification, showNotification,
      huser, hnot]
  · simp [Screen.run, Screen.step, Screen.render, Screen.showsNotification, showNotification,
      huser, hnot]
  · intro hpos
    have hw : ¬ s.now + d + autoDismissDelay ≤ s.now + d + (autoDismissDelay - d) := by omega
    constructor
    · simp [Screen.run, Screen.step, Screen.render, Screen.showsNotification,
        showNotification, huser, hnot, hw]
      omega
    · simp [Screen.run, Screen.step, Screen.render, Screen.showsNotification,
        showNotification, huser, hnot, hw]
  · intro w hw
    have hw2 : ¬ s.now + d + autoDismissDelay ≤ s.now + d + w := by omega
    simp [Screen.run, Screen.step, Screen.render, Screen.showsNotification, showNotification,
      huser, hnot, hw2]
  · intro w hw
    have hw2 : s.now + d + autoDismissDelay ≤ s.now + d + w := by omega
    simp [Screen.run, Screen.step, Screen.render, Screen.showsNotification, showNotification,
      hideNotification, huser, hnot, hw2]
  · intro w hw
    have hw2 : ¬ s.now + d + autoDismissDelay ≤ s.now + d + w := by omega
    simp [Screen.run, Screen.step, Screen.render, Screen.showsNotification, showNotification,
      hideNotification, huser, hnot, hw2]

/-- Claim C13, amended, on alice's screen: two notifications one second apart
and nothing else; four seconds later, when the first would have gone, the
second is held, and five seconds after it was shown it is cleared. -/
theorem notification_replaced_then_dismissed_witness :
    signedInScreen.client.user.isSome = true ∧
    (signedInScreen.run [.show "first" "info", .wait 1000, .show "second" "success",
        .wait (autoDismissDelay - 1000)]).client.notification =
      some { message := "second", type := "success" } ∧
    (signedInScreen.run shownAndLeft).client.notification = none :=
  have h := notification_replaced_then_dismissed signedInScreen "first" "info" "second"
    "success" 1000 rfl (by decide)
  ⟨rfl, (h.2.2.2.1 (by decide)).2, (h.2.2.2.2.2.1 5000 (by decide)).1⟩

end DocumentDisk
